import Mathlib

/-!
# tournament-turtle: the HTTP handlers of `main.go`

A shallow embedding of the five request handlers of `src/main.go` together with the
parts of the Go runtime they lean on:

* `encoding/json`: the encoder for the payloads the handlers write and the scanner
  driven by `json.NewDecoder(...).Decode`;
* `net/http`: the `ResponseWriter` (header map, status line, body);
* `logrus`: log entries, recorded as events.

Go `string` is `String`, `[]byte` is `List Char` (one element per byte; every byte the
scanner tells apart is ASCII), a slice is `Option (List α)` with `none` the nil slice,
an `error` is its message.

What is not in `src/` is a parameter: the `models.Player` type with its JSON codec
(`Codec`) and the data-access object `playerDAO` (`PlayerDAO`), a family of
state-passing functions over an abstract database state. The theorems on the handlers
hold for every codec and every data-access object. `specDAO` is a data-access layer
written after the specification's data model; it serves the round trip of a `POST` and
a `GET` and, with a sample `Player`, the concrete examples.

A handler is a function from the world before the request (`World.init db`: the
database, a fresh response writer, an empty trace) to the world after it; the trace
lists its effects in order.
-/

namespace TournamentTurtle

/-! ## Go values -/

/-- A Go byte slice or the content of a stream. -/
abbrev Bytes := List Char

/-- A Go slice: `none` is the nil slice, `some l` a non-nil slice with elements `l`. -/
abbrev Slice (α : Type) := Option (List α)

/-- A non-nil Go `error`, reduced to what the handlers use: its `Error()` message. -/
structure GoError where
  Error : String
deriving DecidableEq, Repr

/-- Length of a slice (`len`), 0 for the nil slice. -/
def Slice.len {α : Type} : Slice α → Nat
  | none => 0
  | some l => l.length

/-! ## encoding/json: the encoder -/

namespace json

/-- The table `hex = "0123456789abcdef"` of `encode.go`. -/
def hex (n : Nat) : Char := "0123456789abcdef".data.getD n '0'

/-- One step of `encodeState.string` with `escapeHTML = true`, as `json.Marshal` calls
it: the output for one character of a valid UTF-8 string (a character above U+007F
stands for its bytes, which are copied). -/
def encodeChar (c : Char) : Bytes :=
  if c = '\\' ∨ c = '"' then ['\\', c]
  else if c = '\n' then ['\\', 'n']
  else if c = '\r' then ['\\', 'r']
  else if c = '\t' then ['\\', 't']
  else if c.toNat < 0x20 ∨ c = '<' ∨ c = '>' ∨ c = '&' then
    ['\\', 'u', '0', '0', hex (c.toNat / 16), hex (c.toNat % 16)]
  else if c.toNat = 0x2028 ∨ c.toNat = 0x2029 then
    ['\\', 'u', '2', '0', '2', hex (c.toNat % 16)]
  else [c]

/-- The function `encodeState.string`: a Go string as a JSON string literal. -/
def encodeString (s : String) : Bytes :=
  '"' :: (s.data.flatMap encodeChar ++ ['"'])

/-- Elements of an array or members of an object, separated by commas. -/
def commaSep : List Bytes → Bytes
  | [] => []
  | [x] => x
  | x :: y :: rest => x ++ ',' :: commaSep (y :: rest)

/-- The JSON codec of `models.Player`, whose declaration is not part of `src/`:
`marshal p` is what `json.Marshal` writes for the struct value `p` (a record of
fields that all have an encoding, so that the error `respondWithJSON` drops does not
arise), and `unmarshal v` is the effect of `decodeState.unmarshal` on a zero `Player`
for the bytes `v` of one complete JSON value (`Except.error` when it reports an
error). -/
structure Codec (Player : Type) where
  marshal : Player → Bytes
  unmarshal : Bytes → Except GoError Player

/-- The values the handlers pass to `respondWithJSON` as `payload interface{}`:
a `map[string]string` (its entries in key order), a `[]models.Player`, or a
`models.Player`. -/
inductive Payload (Player : Type) where
  | stringMap (entries : List (String × String))
  | players (ps : Slice Player)
  | player (p : Player)

/-- The function `json.Marshal` on the handlers' payloads: the bytes and the error.
A non-nil map encodes as an object, a nil slice as `null`, a non-nil slice as an
array, a struct through its codec. None of these payloads makes the encoder fail. -/
def Marshal {Player : Type} (codec : Codec Player) :
    Payload Player → Bytes × Option GoError
  | .stringMap entries =>
    ('\x7b' :: (commaSep (entries.map fun kv => encodeString kv.1 ++ ':' :: encodeString kv.2)
      ++ ['\x7d']), none)
  | .players none => ("null".data, none)
  | .players (some l) => ('[' :: (commaSep (l.map codec.marshal) ++ [']']), none)
  | .player p => (codec.marshal p, none)

end json

/-! ## encoding/json: the scanner and the stream decoder -/

namespace json

/-- The values a scanner state function returns (`scanContinue` ... `scanError`). -/
inductive ScanCode where
  | scanContinue | scanBeginLiteral | scanBeginObject | scanObjectKey | scanObjectValue
  | scanEndObject | scanBeginArray | scanArrayValue | scanEndArray | scanSkipSpace
  | scanEnd | scanError
deriving DecidableEq, Repr

/-- The entries of the scanner's `parseState` stack. -/
inductive ParseState where
  | parseObjectKey | parseObjectValue | parseArrayValue
deriving DecidableEq, Repr

/-- The state functions of `scanner.go`, the values of the field `step`. -/
inductive Step where
  | stateBeginValueOrEmpty | stateBeginValue | stateBeginStringOrEmpty | stateBeginString
  | stateEndValue | stateEndTop
  | stateInString | stateInStringEsc | stateInStringEscU | stateInStringEscU1
  | stateInStringEscU12 | stateInStringEscU123
  | stateNeg | state1 | state0 | stateDot | stateDot0 | stateE | stateESign | stateE0
  | stateT | stateTr | stateTru | stateF | stateFa | stateFal | stateFals
  | stateN | stateNu | stateNul
  | stateError
deriving DecidableEq, Repr

/-- The JSON scanner. `parseState` is the stack of open objects and arrays, innermost
first (the last element of the Go slice is the head here). -/
structure scanner where
  step : Step
  endTop : Bool
  parseState : List ParseState
  err : Option GoError
  bytes : Nat
deriving DecidableEq, Repr

/-- What `strconv.Quote(string(c))` puts between the quotes for a byte `c` other
than the double quote. -/
def quoteBody (c : Char) : String :=
  if c = '\\' then "\\\\"
  else if (0x20 ≤ c.toNat ∧ c.toNat ≤ 0x7e) ∨ (0xa1 ≤ c.toNat ∧ c.toNat ≠ 0xad) then
    String.mk [c]
  else if c.toNat = 7 then "\\a"
  else if c.toNat = 8 then "\\b"
  else if c.toNat = 12 then "\\f"
  else if c = '\n' then "\\n"
  else if c = '\r' then "\\r"
  else if c = '\t' then "\\t"
  else if c.toNat = 11 then "\\v"
  else if c.toNat < 0x20 then String.mk ['\\', 'x', hex (c.toNat / 16), hex (c.toNat % 16)]
  else String.mk ['\\', 'u', '0', '0', hex (c.toNat / 16), hex (c.toNat % 16)]

/-- The function `quoteChar` of `scanner.go`: a byte as it is shown in a syntax
error. -/
def quoteChar (c : Char) : String :=
  if c = '\'' then "'\\''"
  else if c = '"' then "'\"'"
  else "'" ++ quoteBody c ++ "'"

/-- The function `isSpace`. -/
def isSpace (c : Char) : Bool :=
  c = ' ' || c = '\t' || c = '\r' || c = '\n'

/-- The method `scanner.reset` (a scanner as `Decode` and `checkValid` start it;
the nesting depth is not bounded). -/
def scanner.reset (s : scanner) : scanner :=
  { s with step := .stateBeginValue, parseState := [], err := none, endTop := false }

/-- A zero scanner. -/
def scanner.zero : scanner :=
  { step := .stateBeginValue, endTop := false, parseState := [], err := none, bytes := 0 }

/-- The method `scanner.error`: records a syntax error and switches to `stateError`. -/
def scanner.error (s : scanner) (c : Char) (context : String) : ScanCode × scanner :=
  (.scanError, { s with step := .stateError,
                        err := some ⟨"invalid character " ++ quoteChar c ++ " " ++ context⟩ })

/-- The method `scanner.pushParseState`. -/
def scanner.pushParseState (s : scanner) (p : ParseState) : scanner :=
  { s with parseState := p :: s.parseState }

/-- The method `scanner.popParseState`. -/
def scanner.popParseState (s : scanner) : scanner :=
  let rest := s.parseState.tail
  if rest.length = 0 then { s with parseState := rest, step := .stateEndTop, endTop := true }
  else { s with parseState := rest, step := .stateEndValue }

/-- The assignment `s.parseState[n-1] = p`. -/
def scanner.setTop (s : scanner) (p : ParseState) : scanner :=
  { s with parseState := p :: s.parseState.tail }

/-- State after the top-level value: only space may follow; the complaint about
another byte is stored for the next call and `scanEnd` is returned. -/
def stateEndTop (s : scanner) (c : Char) : ScanCode × scanner :=
  if !isSpace c then (.scanEnd, (s.error c "after top-level value").2)
  else (.scanEnd, s)

/-- State after a complete value, such as after reading `{}` or `true` or
`["x"`. -/
def stateEndValue (s : scanner) (c : Char) : ScanCode × scanner :=
  match s.parseState with
  | [] => stateEndTop { s with step := .stateEndTop, endTop := true } c
  | ps :: _ =>
    if isSpace c then (.scanSkipSpace, { s with step := .stateEndValue })
    else
      match ps with
      | .parseObjectKey =>
        if c = ':' then
          (.scanObjectKey, { s.setTop .parseObjectValue with step := .stateBeginValue })
        else s.error c "after object key"
      | .parseObjectValue =>
        if c = ',' then
          (.scanObjectValue, { s.setTop .parseObjectKey with step := .stateBeginString })
        else if c = '\x7d' then (.scanEndObject, s.popParseState)
        else s.error c "after object key:value pair"
      | .parseArrayValue =>
        if c = ',' then (.scanArrayValue, { s with step := .stateBeginValue })
        else if c = ']' then (.scanEndArray, s.popParseState)
        else s.error c "after array element"

/-- State at the beginning of the input and wherever a value must start. -/
def stateBeginValue (s : scanner) (c : Char) : ScanCode × scanner :=
  if isSpace c then (.scanSkipSpace, s)
  else if c = '\x7b' then
    (.scanBeginObject, { s with step := .stateBeginStringOrEmpty }.pushParseState .parseObjectKey)
  else if c = '[' then
    (.scanBeginArray, { s with step := .stateBeginValueOrEmpty }.pushParseState .parseArrayValue)
  else if c = '"' then (.scanBeginLiteral, { s with step := .stateInString })
  else if c = '-' then (.scanBeginLiteral, { s with step := .stateNeg })
  else if c = '0' then (.scanBeginLiteral, { s with step := .state0 })
  else if c = 't' then (.scanBeginLiteral, { s with step := .stateT })
  else if c = 'f' then (.scanBeginLiteral, { s with step := .stateF })
  else if c = 'n' then (.scanBeginLiteral, { s with step := .stateN })
  else if '1' ≤ c ∧ c ≤ '9' then (.scanBeginLiteral, { s with step := .state1 })
  else s.error c "looking for beginning of value"

/-- State after reading `[`. -/
def stateBeginValueOrEmpty (s : scanner) (c : Char) : ScanCode × scanner :=
  if isSpace c then (.scanSkipSpace, s)
  else if c = ']' then stateEndValue s c
  else stateBeginValue s c

/-- State after reading `{"key": value,`. -/
def stateBeginString (s : scanner) (c : Char) : ScanCode × scanner :=
  if isSpace c then (.scanSkipSpace, s)
  else if c = '"' then (.scanBeginLiteral, { s with step := .stateInString })
  else s.error c "looking for beginning of object key string"

/-- State after reading the opening brace of an object. -/
def stateBeginStringOrEmpty (s : scanner) (c : Char) : ScanCode × scanner :=
  if isSpace c then (.scanSkipSpace, s)
  else if c = '\x7d' then stateEndValue (s.setTop .parseObjectValue) c
  else stateBeginString s c

/-- State inside a string literal. -/
def stateInString (s : scanner) (c : Char) : ScanCode × scanner :=
  if c = '"' then (.scanContinue, { s with step := .stateEndValue })
  else if c = '\\' then (.scanContinue, { s with step := .stateInStringEsc })
  else if c.toNat < 0x20 then s.error c "in string literal"
  else (.scanContinue, s)

/-- State after a backslash in a string literal. -/
def stateInStringEsc (s : scanner) (c : Char) : ScanCode × scanner :=
  if c = 'b' ∨ c = 'f' ∨ c = 'n' ∨ c = 'r' ∨ c = 't' ∨ c = '\\' ∨ c = '/' ∨ c = '"' then
    (.scanContinue, { s with step := .stateInString })
  else if c = 'u' then (.scanContinue, { s with step := .stateInStringEscU })
  else s.error c "in string escape code"

/-- The test for a hexadecimal digit shared by the four `\u` states. -/
def isHexDigit (c : Char) : Bool :=
  ('0' ≤ c && c ≤ '9') || ('a' ≤ c && c ≤ 'f') || ('A' ≤ c && c ≤ 'F')

/-- The states `stateInStringEscU`, `...U1`, `...U12`, `...U123`: `next` is the state
after one more hexadecimal digit. -/
def stateInStringEscUn (next : Step) (s : scanner) (c : Char) : ScanCode × scanner :=
  if isHexDigit c then (.scanContinue, { s with step := next })
  else s.error c "in \\u hexadecimal character escape"

/-- State after the leading `0` of a number, or after its integer digits. -/
def state0 (s : scanner) (c : Char) : ScanCode × scanner :=
  if c = '.' then (.scanContinue, { s with step := .stateDot })
  else if c = 'e' ∨ c = 'E' then (.scanContinue, { s with step := .stateE })
  else stateEndValue s c

/-- State after a non-zero leading digit. -/
def state1 (s : scanner) (c : Char) : ScanCode × scanner :=
  if '0' ≤ c ∧ c ≤ '9' then (.scanContinue, { s with step := .state1 })
  else state0 s c

/-- State after the minus sign of a number. -/
def stateNeg (s : scanner) (c : Char) : ScanCode × scanner :=
  if c = '0' then (.scanContinue, { s with step := .state0 })
  else if '1' ≤ c ∧ c ≤ '9' then (.scanContinue, { s with step := .state1 })
  else s.error c "in numeric literal"

/-- State after the decimal point. -/
def stateDot (s : scanner) (c : Char) : ScanCode × scanner :=
  if '0' ≤ c ∧ c ≤ '9' then (.scanContinue, { s with step := .stateDot0 })
  else s.error c "after decimal point in numeric literal"

/-- State after a digit behind the decimal point. -/
def stateDot0 (s : scanner) (c : Char) : ScanCode × scanner :=
  if '0' ≤ c ∧ c ≤ '9' then (.scanContinue, s)
  else if c = 'e' ∨ c = 'E' then (.scanContinue, { s with step := .stateE })
  else stateEndValue s c

/-- State after the exponent sign, or after `e` when no sign follows. -/
def stateESign (s : scanner) (c : Char) : ScanCode × scanner :=
  if '0' ≤ c ∧ c ≤ '9' then (.scanContinue, { s with step := .stateE0 })
  else s.error c "in exponent of numeric literal"

/-- State after the `e` of an exponent. -/
def stateE (s : scanner) (c : Char) : ScanCode × scanner :=
  if c = '+' ∨ c = '-' then (.scanContinue, { s with step := .stateESign })
  else stateESign s c

/-- State after a digit of the exponent. -/
def stateE0 (s : scanner) (c : Char) : ScanCode × scanner :=
  if '0' ≤ c ∧ c ≤ '9' then (.scanContinue, s)
  else stateEndValue s c

/-- The states inside `true`, `false` and `null`: the byte `want` leads to `next`. -/
def stateLiteral (want : Char) (next : Step) (context : String) (s : scanner) (c : Char) :
    ScanCode × scanner :=
  if c = want then (.scanContinue, { s with step := next })
  else s.error c context

/-- The call `s.step(s, c)`: runs the state function stored in `step`. -/
def scanner.stepFn (s : scanner) (c : Char) : ScanCode × scanner :=
  match s.step with
  | .stateBeginValueOrEmpty => stateBeginValueOrEmpty s c
  | .stateBeginValue => stateBeginValue s c
  | .stateBeginStringOrEmpty => stateBeginStringOrEmpty s c
  | .stateBeginString => stateBeginString s c
  | .stateEndValue => stateEndValue s c
  | .stateEndTop => stateEndTop s c
  | .stateInString => stateInString s c
  | .stateInStringEsc => stateInStringEsc s c
  | .stateInStringEscU => stateInStringEscUn .stateInStringEscU1 s c
  | .stateInStringEscU1 => stateInStringEscUn .stateInStringEscU12 s c
  | .stateInStringEscU12 => stateInStringEscUn .stateInStringEscU123 s c
  | .stateInStringEscU123 => stateInStringEscUn .stateInString s c
  | .stateNeg => stateNeg s c
  | .state1 => state1 s c
  | .state0 => state0 s c
  | .stateDot => stateDot s c
  | .stateDot0 => stateDot0 s c
  | .stateE => stateE s c
  | .stateESign => stateESign s c
  | .stateE0 => stateE0 s c
  | .stateT => stateLiteral 'r' .stateTr "in literal true (expecting 'r')" s c
  | .stateTr => stateLiteral 'u' .stateTru "in literal true (expecting 'u')" s c
  | .stateTru => stateLiteral 'e' .stateEndValue "in literal true (expecting 'e')" s c
  | .stateF => stateLiteral 'a' .stateFa "in literal false (expecting 'a')" s c
  | .stateFa => stateLiteral 'l' .stateFal "in literal false (expecting 'l')" s c
  | .stateFal => stateLiteral 's' .stateFals "in literal false (expecting 's')" s c
  | .stateFals => stateLiteral 'e' .stateEndValue "in literal false (expecting 'e')" s c
  | .stateN => stateLiteral 'u' .stateNu "in literal null (expecting 'u')" s c
  | .stateNu => stateLiteral 'l' .stateNul "in literal null (expecting 'l')" s c
  | .stateNul => stateLiteral 'l' .stateEndValue "in literal null (expecting 'l')" s c
  | .stateError => (.scanError, s)

/-- The method `scanner.eof`: the input has ended. -/
def scanner.eof (s : scanner) : ScanCode × scanner :=
  if s.err.isSome then (.scanError, s)
  else if s.endTop then (.scanEnd, s)
  else
    let s1 := (s.stepFn ' ').2
    if s1.endTop then (.scanEnd, s1)
    else if s1.err.isNone then
      (.scanError, { s1 with err := some ⟨"unexpected end of JSON input"⟩ })
    else (.scanError, s1)

/-- The loop of `checkValid` over the bytes of `data`. -/
def checkValidLoop : scanner → Bytes → Option GoError
  | s, [] => if s.eof.1 = .scanError then s.eof.2.err else none
  | s, c :: rest =>
    let r := { s with bytes := s.bytes + 1 }.stepFn c
    if r.1 = .scanError then r.2.err else checkValidLoop r.2 rest

/-- The function `checkValid`: the error of `data` as one JSON text, `none` when it
is well formed. -/
def checkValid (data : Bytes) : Option GoError :=
  checkValidLoop scanner.zero.reset data

/-- The function `json.Valid`: `data` is one well-formed JSON value, white space
around it allowed and nothing else. -/
def Valid (data : Bytes) : Bool :=
  (checkValid data).isNone

/-- The sentinel `io.EOF`. -/
def EOF : GoError := ⟨"EOF"⟩

/-- The sentinel `io.ErrUnexpectedEOF`. -/
def ErrUnexpectedEOF : GoError := ⟨"unexpected EOF"⟩

/-- The function `nonSpace`: some byte of `b` is not white space. -/
def nonSpace (b : Bytes) : Bool :=
  b.any fun c => !isSpace c

/-- The loop of `Decoder.readValue` over a stream that delivers `buf` and then
`io.EOF`: `rest` is what is still to scan, `scanp` the number of bytes scanned.
Returns the length of the first value and the error. The end of a top-level literal
shows one byte late (`scanEnd`); after a closing brace or bracket a space is
invented instead of waiting for the next byte. -/
def readValueLoop (buf : Bytes) : scanner → Bytes → Nat → Nat × Option GoError
  | s, [], scanp =>
    if (s.stepFn ' ').1 = .scanEnd then (scanp, none)
    else if nonSpace buf then (0, some ErrUnexpectedEOF)
    else (0, some EOF)
  | s, c :: rest, scanp =>
    let r := { s with bytes := s.bytes + 1 }.stepFn c
    if r.1 = .scanEnd then (scanp, none)
    else if r.1 = .scanEndObject ∨ r.1 = .scanEndArray then
      let r2 := r.2.stepFn ' '
      if r2.1 = .scanEnd then (scanp + 1, none)
      else readValueLoop buf r2.2 rest (scanp + 1)
    else if r.1 = .scanError then (0, r.2.err)
    else readValueLoop buf r.2 rest (scanp + 1)

/-- The method `Decoder.readValue` of a new decoder. -/
def readValue (buf : Bytes) : Nat × Option GoError :=
  readValueLoop buf scanner.zero.reset buf 0

/-- The call `json.NewDecoder(body).Decode(&player)` on a zero `player`: the first
JSON value of the stream is cut out and unmarshalled; bytes after it stay unread. -/
def Decode {Player : Type} (codec : Codec Player) (body : Bytes) : Except GoError Player :=
  let r := readValue body
  match r.2 with
  | some err => .error err
  | none => codec.unmarshal (body.take r.1)

end json

/-! ## net/http: requests and the response writer -/

namespace http

/-- The constant `http.StatusOK`. -/
def StatusOK : Nat := 200

/-- The constant `http.StatusInternalServerError`. -/
def StatusInternalServerError : Nat := 500

/-- The fields of `*http.Request` the handlers read, with the route variables
`mux.Vars(request)` the router stored for it. -/
structure Request where
  Method : String
  RemoteAddr : String
  RequestURI : String
  Body : Bytes
  Vars : List (String × String)
deriving DecidableEq, Repr

/-- The state behind an `http.ResponseWriter`: the header map the handler edits, and
what has gone out: whether the status line was written, its code, the headers sent
with it, and the body bytes. -/
structure ResponseWriter where
  header : List (String × String)
  wroteHeader : Bool
  status : Nat
  sentHeader : List (String × String)
  body : Bytes
deriving DecidableEq, Repr

/-- A fresh response writer: nothing set, nothing written. -/
def ResponseWriter.fresh : ResponseWriter :=
  { header := [], wroteHeader := false, status := 0, sentHeader := [], body := [] }

/-- The call `w.Header().Set(key, value)`: replaces the values of `key`. -/
def ResponseWriter.HeaderSet (w : ResponseWriter) (key value : String) : ResponseWriter :=
  { w with header := (w.header.filter fun kv => kv.1 ≠ key) ++ [(key, value)] }

/-- The call `w.WriteHeader(code)`: the first call sends the status line with a
snapshot of the header map; later calls change nothing. -/
def ResponseWriter.WriteHeader (w : ResponseWriter) (code : Nat) : ResponseWriter :=
  if w.wroteHeader then w
  else { w with wroteHeader := true, status := code, sentHeader := w.header }

/-- The call `w.Write(data)`: sends the status line with `StatusOK` first when none
was written, then appends `data` to the body. -/
def ResponseWriter.Write (w : ResponseWriter) (data : Bytes) : ResponseWriter :=
  let w1 := if w.wroteHeader then w else w.WriteHeader StatusOK
  { w1 with body := w1.body ++ data }

end http

/-! ## logrus -/

namespace logrus

/-- The two log levels the handlers write at. -/
inductive Level where
  | InfoLevel | ErrorLevel
deriving DecidableEq, Repr

/-- A log entry: level, the fields given to `WithFields`, and the message. -/
structure Entry where
  level : Level
  fields : List (String × String)
  message : String
deriving DecidableEq, Repr

end logrus

/-! ## The data-access object and the world a handler runs in -/

namespace dao

/-- The methods of `dao.PlayerDAO` the handlers call. The package is not part of
`src/`; every method is an arbitrary function of its argument and the database state
`DB`, returning the Go results and the next database state. -/
structure PlayerDAO (DB Player : Type) where
  FindAll : DB → (Slice Player × Option GoError) × DB
  Insert : Player → DB → Option GoError × DB
  Update : Player → DB → Option GoError × DB
  Delete : Player → DB → Option GoError × DB
  FindByID : String → DB → (Player × Option GoError) × DB

end dao

/-- What the program is linked against: the codec of `models.Player` and the global
`playerDAO`. -/
structure Env (DB Player : Type) where
  codec : json.Codec Player
  playerDAO : dao.PlayerDAO DB Player

/-- The effects of a handler, in the order they happen. -/
inductive Event (Player : Type) where
  | log (entry : logrus.Entry)
  | decode
  | FindAll
  | Insert (p : Player)
  | Update (p : Player)
  | Delete (p : Player)
  | FindByID (id : String)
  | headerSet (key value : String)
  | writeHeader (code : Nat)
  | write (data : Bytes)
  | bodyClose
deriving DecidableEq, Repr

/-- The state a handler runs on: the database behind `playerDAO`, the response
writer, and the trace of effects so far. -/
structure World (DB Player : Type) where
  db : DB
  writer : http.ResponseWriter
  trace : List (Event Player)

variable {DB Player : Type}

/-- The world at the start of a request: a fresh response writer, no effect yet. -/
def World.init (db : DB) : World DB Player :=
  { db := db, writer := http.ResponseWriter.fresh, trace := [] }

/-- Appends an effect to the trace. -/
def World.emit (σ : World DB Player) (e : Event Player) : World DB Player :=
  { σ with trace := σ.trace ++ [e] }

/-- The call `w.Header().Set(key, value)`. -/
def World.HeaderSet (σ : World DB Player) (key value : String) : World DB Player :=
  { σ with writer := σ.writer.HeaderSet key value }.emit (.headerSet key value)

/-- The call `w.WriteHeader(code)`. -/
def World.WriteHeader (σ : World DB Player) (code : Nat) : World DB Player :=
  { σ with writer := σ.writer.WriteHeader code }.emit (.writeHeader code)

/-- The call `w.Write(data)`. -/
def World.Write (σ : World DB Player) (data : Bytes) : World DB Player :=
  { σ with writer := σ.writer.Write data }.emit (.write data)

/-- The call `log.Info(msg)`. -/
def logInfo (msg : String) (σ : World DB Player) : World DB Player :=
  σ.emit (.log { level := .InfoLevel, fields := [], message := msg })

/-- The call `log.Error(err)`. -/
def logError (err : GoError) (σ : World DB Player) : World DB Player :=
  σ.emit (.log { level := .ErrorLevel, fields := [], message := err.Error })

/-- The deferred call `request.Body.Close()`, run when the handler returns. -/
def bodyClose (σ : World DB Player) : World DB Player :=
  σ.emit .bodyClose

/-- The call `json.NewDecoder(request.Body).Decode(&player)`. -/
def decodeBody (env : Env DB Player) (request : http.Request) (σ : World DB Player) :
    Except GoError Player × World DB Player :=
  (json.Decode env.codec request.Body, σ.emit .decode)

/-- The call `playerDAO.FindAll()`. -/
def callFindAll (env : Env DB Player) (σ : World DB Player) :
    (Slice Player × Option GoError) × World DB Player :=
  let r := env.playerDAO.FindAll σ.db
  (r.1, { σ with db := r.2 }.emit .FindAll)

/-- The call `playerDAO.Insert(player)`. -/
def callInsert (env : Env DB Player) (player : Player) (σ : World DB Player) :
    Option GoError × World DB Player :=
  let r := env.playerDAO.Insert player σ.db
  (r.1, { σ with db := r.2 }.emit (.Insert player))

/-- The call `playerDAO.Update(player)`. -/
def callUpdate (env : Env DB Player) (player : Player) (σ : World DB Player) :
    Option GoError × World DB Player :=
  let r := env.playerDAO.Update player σ.db
  (r.1, { σ with db := r.2 }.emit (.Update player))

/-- The call `playerDAO.Delete(player)`. -/
def callDelete (env : Env DB Player) (player : Player) (σ : World DB Player) :
    Option GoError × World DB Player :=
  let r := env.playerDAO.Delete player σ.db
  (r.1, { σ with db := r.2 }.emit (.Delete player))

/-- The call `playerDAO.FindByID(id)`. -/
def callFindByID (env : Env DB Player) (id : String) (σ : World DB Player) :
    (Player × Option GoError) × World DB Player :=
  let r := env.playerDAO.FindByID id σ.db
  (r.1, { σ with db := r.2 }.emit (.FindByID id))

/-- The lookup `mux.Vars(request)[key]`: the empty string when the key is absent. -/
def muxVar (request : http.Request) (key : String) : String :=
  (request.Vars.lookup key).getD ""

/-! ## main.go -/

/-- The function `logRequestInfo`: one entry at info level with the remote address,
the method and the request URI, and an empty message. -/
def logRequestInfo (request : http.Request) (σ : World DB Player) : World DB Player :=
  σ.emit (.log { level := .InfoLevel,
                 fields := [("RemoteAddr", request.RemoteAddr), ("Method", request.Method),
                            ("RequestURI", request.RequestURI)],
                 message := "" })

/-- The function `respondWithJSON`: marshals the payload (dropping the encoder's
error), sets the content type, writes the status code, writes the bytes. -/
def respondWithJSON (env : Env DB Player) (code : Nat) (payload : json.Payload Player)
    (σ : World DB Player) : World DB Player :=
  let response := (json.Marshal env.codec payload).1
  let σ := σ.HeaderSet "Content-Type" "application/json"
  let σ := σ.WriteHeader code
  σ.Write response

/-- The function `respondWithError`. -/
def respondWithError (env : Env DB Player) (code : Nat) (msg : String)
    (σ : World DB Player) : World DB Player :=
  respondWithJSON env code (.stringMap [("error", msg)]) σ

/-- The handler `AllPlayersEndPoint` (`GET /players`). -/
def AllPlayersEndPoint (env : Env DB Player) (request : http.Request)
    (σ : World DB Player) : World DB Player :=
  let σ := logRequestInfo request σ
  let r := callFindAll env σ
  match r.1.2 with
  | some err =>
    let σ := respondWithError env http.StatusInternalServerError err.Error r.2
    logError err σ
  | none => respondWithJSON env http.StatusOK (.players r.1.1) r.2

/-- The handler `CreatePlayerEndPoint` (`POST /players`). -/
def CreatePlayerEndPoint (env : Env DB Player) (request : http.Request)
    (σ : World DB Player) : World DB Player :=
  bodyClose <|
    let σ := logRequestInfo request σ
    let d := decodeBody env request σ
    match d.1 with
    | .error err =>
      let σ := respondWithError env http.StatusInternalServerError err.Error d.2
      logError err σ
    | .ok player =>
      let r := callInsert env player d.2
      match r.1 with
      | some err =>
        let σ := respondWithError env http.StatusInternalServerError err.Error r.2
        logError err σ
      | none => respondWithJSON env http.StatusOK (.stringMap [("result", "success")]) r.2

/-- The handler `UpdatePlayerEndPoint` (`PUT /players`). -/
def UpdatePlayerEndPoint (env : Env DB Player) (request : http.Request)
    (σ : World DB Player) : World DB Player :=
  bodyClose <|
    let σ := logRequestInfo request σ
    let d := decodeBody env request σ
    match d.1 with
    | .error err =>
      let σ := respondWithError env http.StatusInternalServerError err.Error d.2
      logError err σ
    | .ok player =>
      let r := callUpdate env player d.2
      match r.1 with
      | some err =>
        let σ := respondWithError env http.StatusInternalServerError err.Error r.2
        logError err σ
      | none => respondWithJSON env http.StatusOK (.stringMap [("result", "success")]) r.2

/-- The handler `DeletePlayerEndPoint` (`DELETE /players`). -/
def DeletePlayerEndPoint (env : Env DB Player) (request : http.Request)
    (σ : World DB Player) : World DB Player :=
  bodyClose <|
    let σ := logRequestInfo request σ
    let d := decodeBody env request σ
    match d.1 with
    | .error err =>
      let σ := respondWithError env http.StatusInternalServerError err.Error d.2
      logError err σ
    | .ok player =>
      let r := callDelete env player d.2
      match r.1 with
      | some err =>
        let σ := respondWithError env http.StatusInternalServerError err.Error r.2
        logError err σ
      | none => respondWithJSON env http.StatusOK (.stringMap [("result", "success")]) r.2

/-- The handler `FindPlayerByIDEndPoint` (`GET /players/{id}`). -/
def FindPlayerByIDEndPoint (env : Env DB Player) (request : http.Request)
    (σ : World DB Player) : World DB Player :=
  let σ := logRequestInfo request σ
  let parameters := muxVar request
  let σ := logInfo (parameters "id") σ
  let r := callFindByID env (parameters "id") σ
  match r.1.2 with
  | some err =>
    let σ := respondWithError env http.StatusInternalServerError err.Error r.2
    logError err σ
  | none => respondWithJSON env http.StatusOK (.player r.1.1) r.2

/-! ## A data-access layer after the specification, and a sample program -/

/-- Modelled from the spec: the package `dao` (`FindAll`, `Insert`, `Update`,
`Delete`, `FindByID`) is not part of `src/`. After the specification's data model: one
collection of Player documents exclusively owned by the database; a Player's identity
`ID p` is unique and is the lookup key of `FindByID`; a Player is created by `Insert`,
replaced as a whole by `Update`, removed by `Delete`, read by `FindAll` and
`FindByID`; every operation is one native command with no added logic, and a lookup
that finds nothing is a failure. -/
def specDAO [Inhabited Player] (ID : Player → String) : dao.PlayerDAO (List Player) Player where
  FindAll db := ((some db, none), db)
  Insert p db :=
    if db.any (fun q => ID q = ID p) then (some ⟨"duplicate key"⟩, db)
    else (none, db ++ [p])
  Update p db :=
    if db.any (fun q => ID q = ID p) then (none, db.map fun q => if ID q = ID p then p else q)
    else (some ⟨"not found"⟩, db)
  Delete p db :=
    if db.any (fun q => ID q = ID p) then (none, db.filter fun q => ID q ≠ ID p)
    else (some ⟨"not found"⟩, db)
  FindByID id db :=
    match db.find? (fun q => ID q = id) with
    | some p => ((p, none), db)
    | none => ((default, some ⟨"not found"⟩), db)

/-- A sample `models.Player`: an identifier and a name, both strings, with the JSON
keys `id` and `name`. -/
structure SamplePlayer where
  ID : String
  Name : String
deriving DecidableEq, Repr, Inhabited

/-- Reads a string literal without escapes whose opening quote was consumed: the
content and what follows the closing quote. -/
def sampleString : Bytes → Option (List Char × Bytes)
  | [] => none
  | c :: rest =>
    if c = '"' then some ([], rest)
    else if c = '\\' then none
    else (sampleString rest).map fun r => (c :: r.1, r.2)

/-- Reads the members `"key":"value",...` of a flat object up to its closing brace. -/
def sampleMembers : Nat → Bytes → Option (List (String × String))
  | 0, _ => none
  | fuel + 1, '"' :: rest =>
    match sampleString rest with
    | some (k, ':' :: '"' :: rest2) =>
      match sampleString rest2 with
      | some (v, ['\x7d']) => some [(String.mk k, String.mk v)]
      | some (v, ',' :: rest3) =>
        (sampleMembers fuel rest3).map fun ms => (String.mk k, String.mk v) :: ms
      | _ => none
    | _ => none
  | _, _ => none

/-- The sample codec. Encoding writes both fields. Decoding covers what the examples
need: the empty object, and objects whose members are string literals without escapes
and without white space; any other value is answered with an error. -/
def sampleCodec : json.Codec SamplePlayer where
  marshal p :=
    "\x7b\"id\":".data ++ json.encodeString p.ID ++ ",\"name\":".data
      ++ json.encodeString p.Name ++ ['\x7d']
  unmarshal v :=
    match v with
    | ['\x7b', '\x7d'] => .ok ⟨"", ""⟩
    | '\x7b' :: rest =>
      match sampleMembers rest.length rest with
      | some ms => .ok ⟨(ms.lookup "id").getD "", (ms.lookup "name").getD ""⟩
      | none => .error ⟨"json: cannot unmarshal value into Go value of type models.Player"⟩
    | _ => .error ⟨"json: cannot unmarshal value into Go value of type models.Player"⟩

/-- The sample program: the sample codec over the specification's data-access
layer. -/
def sampleEnv : Env (List SamplePlayer) SamplePlayer where
  codec := sampleCodec
  playerDAO := specDAO SamplePlayer.ID

/-- A data-access layer whose every call fails with `msg` (a lost connection). -/
def failingDAO (msg : String) : dao.PlayerDAO (List SamplePlayer) SamplePlayer where
  FindAll db := ((none, some ⟨msg⟩), db)
  Insert _ db := (some ⟨msg⟩, db)
  Update _ db := (some ⟨msg⟩, db)
  Delete _ db := (some ⟨msg⟩, db)
  FindByID _ db := ((default, some ⟨msg⟩), db)

/-- A data-access layer over an empty collection whose `FindAll` leaves the result
slice nil. -/
def nilDAO : dao.PlayerDAO Unit SamplePlayer where
  FindAll db := ((none, none), db)
  Insert _ db := (none, db)
  Update _ db := (some ⟨"not found"⟩, db)
  Delete _ db := (some ⟨"not found"⟩, db)
  FindByID _ db := ((default, some ⟨"not found"⟩), db)

/-- A sample request. -/
def sampleRequest (method uri : String) (body : String) (vars : List (String × String)) :
    http.Request :=
  { Method := method, RemoteAddr := "127.0.0.1:40000", RequestURI := uri,
    Body := body.data, Vars := vars }

/-- The body of an error response: the object with the one member `error`. -/
def errorBody (msg : String) : Bytes :=
  "\x7b\"error\":".data ++ json.encodeString msg ++ ['\x7d']

/-- The body of a success response of the writing handlers. -/
def successBody : Bytes := "\x7b\"result\":\"success\"\x7d".data

/-! ## Observations on a finished handler run -/

/-- The event is a call of the data-access object. -/
def Event.isDAO : Event Player → Bool
  | .FindAll | .Insert _ | .Update _ | .Delete _ | .FindByID _ => true
  | _ => false

/-- The event writes the status line. -/
def Event.isWriteHeader : Event Player → Bool
  | .writeHeader _ => true
  | _ => false

/-- The event writes body bytes. -/
def Event.isWrite : Event Player → Bool
  | .write _ => true
  | _ => false

/-- The event is a log entry that carries the method, the remote address and the
request URI of `request`. -/
def Event.isRequestLog (request : http.Request) : Event Player → Bool
  | .log entry =>
    decide (entry.fields.lookup "Method" = some request.Method) &&
    decide (entry.fields.lookup "RemoteAddr" = some request.RemoteAddr) &&
    decide (entry.fields.lookup "RequestURI" = some request.RequestURI)
  | _ => false

/-- The entry `logRequestInfo` writes. -/
def requestLog (request : http.Request) : Event Player :=
  .log { level := .InfoLevel,
         fields := [("RemoteAddr", request.RemoteAddr), ("Method", request.Method),
                    ("RequestURI", request.RequestURI)],
         message := "" }

/-- The entry `log.Error(err)` writes. -/
def errorLog (err : GoError) : Event Player :=
  .log { level := .ErrorLevel, fields := [], message := err.Error }

/-- The three effects of `respondWithJSON`. -/
def respondEvents (code : Nat) (body : Bytes) : List (Event Player) :=
  [.headerSet "Content-Type" "application/json", .writeHeader code, .write body]

/-- The response writer after one `respondWithJSON` on a fresh writer. -/
def responded (code : Nat) (body : Bytes) : http.ResponseWriter :=
  { header := [("Content-Type", "application/json")],
    wroteHeader := true,
    status := code,
    sentHeader := [("Content-Type", "application/json")],
    body := body }

/-- The error a writing handler meets, if any: the decode error, else the error of
the data-access call on the decoded player. -/
def writeFailure (decoded : Except GoError Player) (call : Player → Option GoError) :
    Option GoError :=
  match decoded with
  | .error err => some err
  | .ok player => call player

/-- The error policy on a finished run, `failure` being the error the body decode or
the data-access call returned: the status is 200 or 500, it is 500 exactly when there
was an error, and then the body is the object with that error's message. -/
def ErrorPolicy (σ : World DB Player) (failure : Option GoError) : Prop :=
  (σ.writer.status = 200 ∨ σ.writer.status = 500) ∧
  (σ.writer.status = 500 ↔ failure ≠ none) ∧
  (∀ err, failure = some err → σ.writer.body = errorBody err.Error)

/-- The response went out with `Content-Type: application/json`, and the header was
set before anything was written: the trace has the `Set` directly before the
`WriteHeader`, and neither a status line nor body bytes before them. -/
def SendsJSONContentType (σ : World DB Player) : Prop :=
  σ.writer.sentHeader.lookup "Content-Type" = some "application/json" ∧
  ∃ (pre post : List (Event Player)) (code : Nat),
    σ.trace = pre ++ .headerSet "Content-Type" "application/json" :: .writeHeader code :: post ∧
    pre.all (fun e => !e.isWriteHeader && !e.isWrite) = true

/-- The request is logged exactly once, as the first effect of the run. -/
def LogsRequestFirst (request : http.Request) (σ : World DB Player) : Prop :=
  ∃ (e : Event Player) (rest : List (Event Player)),
    σ.trace = e :: rest ∧ e.isRequestLog request = true ∧
    rest.all (fun e => !e.isRequestLog request) = true

/-- Exactly one status line and one body were written. -/
def WritesOneResponse (σ : World DB Player) : Prop :=
  σ.trace.countP Event.isWriteHeader = 1 ∧ σ.trace.countP Event.isWrite = 1 ∧
  σ.writer.wroteHeader = true

/-- The shape every run of a handler has: the request log first, then effects `mid`,
the three effects of one `respondWithJSON` on the fresh writer, then effects `post`;
neither `mid` nor `post` writes to the response or logs the request again. -/
def RunShape (request : http.Request) (σ : World DB Player) : Prop :=
  ∃ (code : Nat) (body : Bytes) (mid post : List (Event Player)),
    σ.writer = responded code body ∧
    σ.trace = requestLog request :: (mid ++ (respondEvents code body ++ post)) ∧
    (mid ++ post).all
      (fun e => !e.isWriteHeader && !e.isWrite && !e.isRequestLog request) = true

/-- The three writing handlers reject the request with `err`: each answers with
status 500 and the object with the one member `error`, its value the message of
`err`. -/
def RejectsWith (env : Env DB Player) (request : http.Request) (db : DB) (err : GoError) :
    Prop :=
  ((CreatePlayerEndPoint env request (World.init db)).writer.status = 500 ∧
   (CreatePlayerEndPoint env request (World.init db)).writer.body = errorBody err.Error) ∧
  ((UpdatePlayerEndPoint env request (World.init db)).writer.status = 500 ∧
   (UpdatePlayerEndPoint env request (World.init db)).writer.body = errorBody err.Error) ∧
  ((DeletePlayerEndPoint env request (World.init db)).writer.status = 500 ∧
   (DeletePlayerEndPoint env request (World.init db)).writer.body = errorBody err.Error)

/-- The three writing handlers run on `request` exactly as on the same request with
`body` in place of its body: the same database, response and trace of effects. -/
def RunsAsOn (env : Env DB Player) (request : http.Request) (db : DB) (body : Bytes) : Prop :=
  CreatePlayerEndPoint env request (World.init db) =
    CreatePlayerEndPoint env { request with Body := body } (World.init db) ∧
  UpdatePlayerEndPoint env request (World.init db) =
    UpdatePlayerEndPoint env { request with Body := body } (World.init db) ∧
  DeletePlayerEndPoint env request (World.init db) =
    DeletePlayerEndPoint env { request with Body := body } (World.init db)

namespace json

/-- No error so far: the scanner has recorded no error, is not in the error state, is
past the top-level value only with `endTop` set and no open array or object, and
awaits a first array element only inside an array. -/
def scanner.Sound (s : scanner) : Prop :=
  s.err = none ∧ s.step ≠ .stateError ∧
  (s.step = .stateEndTop → s.endTop = true ∧ s.parseState = []) ∧
  (s.step = .stateBeginValueOrEmpty → s.parseState ≠ [])

/-- What one call of a state function on a sound scanner `s` can give: an error that
is recorded; the end of the top-level value, outside every object and array; the end
of an object or array, the stack popped; or another code and a sound scanner. -/
def StepResult (s : scanner) (r : ScanCode × scanner) : Prop :=
  (r.1 = .scanError ∧ r.2.err.isSome = true) ∨
  (r.1 = .scanEnd ∧ s.parseState = []) ∨
  ((r.1 = .scanEndObject ∨ r.1 = .scanEndArray) ∧
    ∃ s0 : scanner, s0.err = none ∧ r.2 = s0.popParseState) ∨
  (r.1 ≠ .scanError ∧ r.1 ≠ .scanEnd ∧ r.1 ≠ .scanEndObject ∧ r.1 ≠ .scanEndArray ∧ r.2.Sound)

end json

/-! # Theorems -/

set_option linter.unusedTactic false
set_option linter.unreachableTactic false

/-! ## The scanner: what a successful `readValue` has read -/

namespace json

theorem error_fst (s : scanner) (c : Char) (ctx : String) : (s.error c ctx).1 = .scanError := rfl

theorem error_result (s s1 : scanner) (c : Char) (ctx : String) :
    StepResult s1 (s.error c ctx) :=
  Or.inl ⟨rfl, rfl⟩

theorem continue_result (s1 : scanner) (code : ScanCode) (s : scanner) (hs : s.Sound)
    (h1 : code ≠ .scanError) (h2 : code ≠ .scanEnd) (h3 : code ≠ .scanEndObject)
    (h4 : code ≠ .scanEndArray) : StepResult s1 (code, s) :=
  Or.inr (Or.inr (Or.inr ⟨h1, h2, h3, h4, hs⟩))

theorem popParseState_cases (s : scanner) :
    (s.popParseState.step = .stateEndTop ∧ s.popParseState.endTop = true ∧
      s.popParseState.parseState = [] ∧ s.popParseState.err = s.err) ∨
    (s.popParseState.step = .stateEndValue ∧ s.popParseState.parseState ≠ [] ∧
      s.popParseState.err = s.err) := by
  unfold scanner.popParseState
  cases h : s.parseState.tail with
  | nil => left; simp
  | cons a l => right; simp

theorem popParseState_sound (s : scanner) (h : s.err = none) : s.popParseState.Sound := by
  rcases popParseState_cases s with ⟨h1, h2, h3, h4⟩ | ⟨h1, _, h3⟩
  · exact ⟨h4.trans h, by simp [h1], fun _ => ⟨h2, h3⟩, by simp [h1]⟩
  · exact ⟨h3.trans h, by simp [h1], by simp [h1], by simp [h1]⟩

theorem Sound.with_step (s : scanner) (hs : s.Sound) (st : Step) (h1 : st ≠ .stateError)
    (h2 : st ≠ .stateEndTop) (h3 : st ≠ .stateBeginValueOrEmpty) :
    scanner.Sound { s with step := st } :=
  ⟨hs.1, h1, fun h => absurd h h2, fun h => absurd h h3⟩

theorem stateEndValue_result (s : scanner) (c : Char) (hs : s.Sound) :
    StepResult s (stateEndValue s c) := by
  unfold stateEndValue
  split
  · rename_i h
    exact Or.inr (Or.inl ⟨by unfold stateEndTop; split <;> rfl, h⟩)
  · rename_i ps rest h
    split
    · exact continue_result _ _ _ (Sound.with_step s hs _ (by simp) (by simp) (by simp))
        (by simp) (by simp) (by simp) (by simp)
    · split
      · split
        · refine continue_result _ _ _ ?_ (by simp) (by simp) (by simp) (by simp)
          exact ⟨hs.1, by simp, by simp, by simp⟩
        · exact error_result _ _ _ _
      · split
        · refine continue_result _ _ _ ?_ (by simp) (by simp) (by simp) (by simp)
          exact ⟨hs.1, by simp, by simp, by simp⟩
        · split
          · exact Or.inr (Or.inr (Or.inl ⟨Or.inl rfl, s, hs.1, rfl⟩))
          · exact error_result _ _ _ _
      · split
        · exact continue_result _ _ _ (Sound.with_step s hs _ (by simp) (by simp) (by simp))
            (by simp) (by simp) (by simp) (by simp)
        · split
          · exact Or.inr (Or.inr (Or.inl ⟨Or.inr rfl, s, hs.1, rfl⟩))
          · exact error_result _ _ _ _

theorem stateBeginValue_result (s : scanner) (c : Char) (hs : s.Sound) :
    StepResult s (stateBeginValue s c) := by
  unfold stateBeginValue
  repeat' split
  all_goals first
    | exact error_result _ _ _ _
    | exact continue_result _ _ _ hs (by simp) (by simp) (by simp) (by simp)
    | exact continue_result _ _ _ (Sound.with_step s hs _ (by simp) (by simp) (by simp))
        (by simp) (by simp) (by simp) (by simp)
    | exact continue_result _ _ _
        ⟨hs.1, by simp [scanner.pushParseState], by simp [scanner.pushParseState],
          by simp [scanner.pushParseState]⟩ (by simp) (by simp) (by simp) (by simp)

theorem stateBeginValueOrEmpty_result (s : scanner) (c : Char) (hs : s.Sound) :
    StepResult s (stateBeginValueOrEmpty s c) := by
  unfold stateBeginValueOrEmpty
  repeat' split
  all_goals first
    | exact continue_result _ _ _ hs (by simp) (by simp) (by simp) (by simp)
    | exact stateEndValue_result s c hs
    | exact stateBeginValue_result s c hs

theorem stateBeginString_result (s : scanner) (c : Char) (hs : s.Sound) :
    StepResult s (stateBeginString s c) := by
  unfold stateBeginString
  repeat' split
  all_goals first
    | exact error_result _ _ _ _
    | exact continue_result _ _ _ hs (by simp) (by simp) (by simp) (by simp)
    | exact continue_result _ _ _ (Sound.with_step s hs _ (by simp) (by simp) (by simp))
        (by simp) (by simp) (by simp) (by simp)

theorem setTop_sound (s : scanner) (p : ParseState) (hs : s.Sound)
    (h : s.step ≠ .stateEndTop) : (s.setTop p).Sound :=
  ⟨hs.1, hs.2.1, fun h1 => absurd h1 h, fun _ => by simp [scanner.setTop]⟩

theorem StepResult_of_setTop (s : scanner) (p : ParseState) (r : ScanCode × scanner)
    (h : StepResult (s.setTop p) r) : StepResult s r := by
  rcases h with h | ⟨_, h⟩ | h | h
  · exact Or.inl h
  · simp [scanner.setTop] at h
  · exact Or.inr (Or.inr (Or.inl h))
  · exact Or.inr (Or.inr (Or.inr h))

theorem stateBeginStringOrEmpty_result (s : scanner) (c : Char) (hs : s.Sound)
    (h : s.step = .stateBeginStringOrEmpty) :
    StepResult s (stateBeginStringOrEmpty s c) := by
  unfold stateBeginStringOrEmpty
  repeat' split
  all_goals first
    | exact continue_result _ _ _ hs (by simp) (by simp) (by simp) (by simp)
    | exact StepResult_of_setTop _ _ _
        (stateEndValue_result _ c (setTop_sound s _ hs (by simp [h])))
    | exact stateBeginString_result s c hs

theorem stateInString_result (s : scanner) (c : Char) (hs : s.Sound) :
    StepResult s (stateInString s c) := by
  unfold stateInString
  repeat' split
  all_goals first
    | exact error_result _ _ _ _
    | exact continue_result _ _ _ hs (by simp) (by simp) (by simp) (by simp)
    | exact continue_result _ _ _ (Sound.with_step s hs _ (by simp) (by simp) (by simp))
        (by simp) (by simp) (by simp) (by simp)

theorem stateInStringEsc_result (s : scanner) (c : Char) (hs : s.Sound) :
    StepResult s (stateInStringEsc s c) := by
  unfold stateInStringEsc
  repeat' split
  all_goals first
    | exact error_result _ _ _ _
    | exact continue_result _ _ _ hs (by simp) (by simp) (by simp) (by simp)
    | exact continue_result _ _ _ (Sound.with_step s hs _ (by simp) (by simp) (by simp))
        (by simp) (by simp) (by simp) (by simp)
    | exact stateEndValue_result s c hs

theorem stateNeg_result (s : scanner) (c : Char) (hs : s.Sound) :
    StepResult s (stateNeg s c) := by
  unfold stateNeg
  repeat' split
  all_goals first
    | exact error_result _ _ _ _
    | exact continue_result _ _ _ hs (by simp) (by simp) (by simp) (by simp)
    | exact continue_result _ _ _ (Sound.with_step s hs _ (by simp) (by simp) (by simp))
        (by simp) (by simp) (by simp) (by simp)
    | exact stateEndValue_result s c hs

theorem stateDot_result (s : scanner) (c : Char) (hs : s.Sound) :
    StepResult s (stateDot s c) := by
  unfold stateDot
  repeat' split
  all_goals first
    | exact error_result _ _ _ _
    | exact continue_result _ _ _ hs (by simp) (by simp) (by simp) (by simp)
    | exact continue_result _ _ _ (Sound.with_step s hs _ (by simp) (by simp) (by simp))
        (by simp) (by simp) (by simp) (by simp)
    | exact stateEndValue_result s c hs

theorem stateESign_result (s : scanner) (c : Char) (hs : s.Sound) :
    StepResult s (stateESign s c) := by
  unfold stateESign
  repeat' split
  all_goals first
    | exact error_result _ _ _ _
    | exact continue_result _ _ _ hs (by simp) (by simp) (by simp) (by simp)
    | exact continue_result _ _ _ (Sound.with_step s hs _ (by simp) (by simp) (by simp))
        (by simp) (by simp) (by simp) (by simp)
    | exact stateEndValue_result s c hs

theorem state0_result (s : scanner) (c : Char) (hs : s.Sound) :
    StepResult s (state0 s c) := by
  unfold state0
  repeat' split
  all_goals first
    | exact error_result _ _ _ _
    | exact continue_result _ _ _ hs (by simp) (by simp) (by simp) (by simp)
    | exact continue_result _ _ _ (Sound.with_step s hs _ (by simp) (by simp) (by simp))
        (by simp) (by simp) (by simp) (by simp)
    | exact stateEndValue_result s c hs

theorem stateDot0_result (s : scanner) (c : Char) (hs : s.Sound) :
    StepResult s (stateDot0 s c) := by
  unfold stateDot0
  repeat' split
  all_goals first
    | exact error_result _ _ _ _
    | exact continue_result _ _ _ hs (by simp) (by simp) (by simp) (by simp)
    | exact continue_result _ _ _ (Sound.with_step s hs _ (by simp) (by simp) (by simp))
        (by simp) (by simp) (by simp) (by simp)
    | exact stateEndValue_result s c hs

theorem stateE0_result (s : scanner) (c : Char) (hs : s.Sound) :
    StepResult s (stateE0 s c) := by
  unfold stateE0
  repeat' split
  all_goals first
    | exact error_result _ _ _ _
    | exact continue_result _ _ _ hs (by simp) (by simp) (by simp) (by simp)
    | exact continue_result _ _ _ (Sound.with_step s hs _ (by simp) (by simp) (by simp))
        (by simp) (by simp) (by simp) (by simp)
    | exact stateEndValue_result s c hs

theorem state1_result (s : scanner) (c : Char) (hs : s.Sound) :
    StepResult s (state1 s c) := by
  unfold state1
  split
  · exact continue_result _ _ _ (Sound.with_step s hs _ (by simp) (by simp) (by simp))
      (by simp) (by simp) (by simp) (by simp)
  · exact state0_result s c hs

theorem stateE_result (s : scanner) (c : Char) (hs : s.Sound) :
    StepResult s (stateE s c) := by
  unfold stateE
  split
  · exact continue_result _ _ _ (Sound.with_step s hs _ (by simp) (by simp) (by simp))
      (by simp) (by simp) (by simp) (by simp)
  · exact stateESign_result s c hs

theorem stateInStringEscUn_result (next : Step) (h1 : next ≠ .stateError)
    (h2 : next ≠ .stateEndTop) (h3 : next ≠ .stateBeginValueOrEmpty)
    (s : scanner) (c : Char) (hs : s.Sound) :
    StepResult s (stateInStringEscUn next s c) := by
  unfold stateInStringEscUn
  split
  · exact continue_result _ _ _ (Sound.with_step s hs _ h1 h2 h3)
      (by simp) (by simp) (by simp) (by simp)
  · exact error_result _ _ _ _

theorem stateLiteral_result (want : Char) (next : Step) (ctx : String) (h1 : next ≠ .stateError)
    (h2 : next ≠ .stateEndTop) (h3 : next ≠ .stateBeginValueOrEmpty)
    (s : scanner) (c : Char) (hs : s.Sound) :
    StepResult s (stateLiteral want next ctx s c) := by
  unfold stateLiteral
  split
  · exact continue_result _ _ _ (Sound.with_step s hs _ h1 h2 h3)
      (by simp) (by simp) (by simp) (by simp)
  · exact error_result _ _ _ _

theorem stateEndTop_result (s : scanner) (c : Char) (h : s.parseState = []) :
    StepResult s (stateEndTop s c) :=
  Or.inr (Or.inl ⟨by unfold stateEndTop; split <;> rfl, h⟩)

/-- Every step of a sound scanner gives one of the four results. -/
theorem stepFn_result (s : scanner) (c : Char) (hs : s.Sound) :
    StepResult s (s.stepFn c) := by
  unfold scanner.stepFn
  split
  all_goals first
    | exact stateBeginValueOrEmpty_result s c hs
    | exact stateBeginValue_result s c hs
    | exact stateBeginStringOrEmpty_result s c hs (by assumption)
    | exact stateBeginString_result s c hs
    | exact stateEndValue_result s c hs
    | exact stateInString_result s c hs
    | exact stateInStringEsc_result s c hs
    | exact stateInStringEscUn_result _ (by simp) (by simp) (by simp) s c hs
    | exact stateNeg_result s c hs
    | exact state1_result s c hs
    | exact state0_result s c hs
    | exact stateDot_result s c hs
    | exact stateDot0_result s c hs
    | exact stateE_result s c hs
    | exact stateESign_result s c hs
    | exact stateE0_result s c hs
    | exact stateLiteral_result _ _ _ (by simp) (by simp) (by simp) s c hs
    | skip
  · rename_i h
    exact stateEndTop_result s c (hs.2.2.1 h).2
  · rename_i h
    exact absurd h hs.2.1

theorem stateBeginValue_not_end (s : scanner) (c : Char) :
    (stateBeginValue s c).1 ≠ .scanEnd := by
  unfold stateBeginValue
  repeat' split
  all_goals first
    | (rw [error_fst]; simp)
    | simp

theorem stateBeginString_not_end (s : scanner) (c : Char) :
    (stateBeginString s c).1 ≠ .scanEnd := by
  unfold stateBeginString
  repeat' split
  all_goals first
    | (rw [error_fst]; simp)
    | simp

theorem stateInString_not_end (s : scanner) (c : Char) :
    (stateInString s c).1 ≠ .scanEnd := by
  unfold stateInString
  repeat' split
  all_goals first
    | (rw [error_fst]; simp)
    | simp

theorem stateInStringEsc_not_end (s : scanner) (c : Char) :
    (stateInStringEsc s c).1 ≠ .scanEnd := by
  unfold stateInStringEsc
  repeat' split
  all_goals first
    | (rw [error_fst]; simp)
    | simp

theorem stateNeg_not_end (s : scanner) (c : Char) :
    (stateNeg s c).1 ≠ .scanEnd := by
  unfold stateNeg
  repeat' split
  all_goals first
    | (rw [error_fst]; simp)
    | simp

theorem stateDot_not_end (s : scanner) (c : Char) :
    (stateDot s c).1 ≠ .scanEnd := by
  unfold stateDot
  repeat' split
  all_goals first
    | (rw [error_fst]; simp)
    | simp

theorem stateESign_not_end (s : scanner) (c : Char) :
    (stateESign s c).1 ≠ .scanEnd := by
  unfold stateESign
  repeat' split
  all_goals first
    | (rw [error_fst]; simp)
    | simp

theorem stateInStringEscUn_not_end (next : Step) (s : scanner) (c : Char) :
    (stateInStringEscUn next s c).1 ≠ .scanEnd := by
  unfold stateInStringEscUn
  repeat' split
  all_goals first
    | (rw [error_fst]; simp)
    | simp

theorem stateLiteral_not_end (want : Char) (next : Step) (ctx : String) (s : scanner) (c : Char) :
    (stateLiteral want next ctx s c).1 ≠ .scanEnd := by
  unfold stateLiteral
  repeat' split
  all_goals first
    | (rw [error_fst]; simp)
    | simp

theorem stateE_not_end (s : scanner) (c : Char) : (stateE s c).1 ≠ .scanEnd := by
  unfold stateE
  split
  · simp
  · exact stateESign_not_end s c

theorem stateEndValue_end (s : scanner) (c : Char) (h : (stateEndValue s c).1 = .scanEnd) :
    s.parseState = [] := by
  unfold stateEndValue at h
  split at h
  · assumption
  · exfalso
    revert h
    repeat' split
    all_goals first
      | (rw [error_fst]; simp)
      | simp

theorem stateEndValue_space (s : scanner) (h : s.parseState = []) :
    (stateEndValue s ' ').2.endTop = true := by
  simp [stateEndValue, h, stateEndTop, isSpace]

theorem stateBeginStringOrEmpty_not_end (s : scanner) (c : Char) :
    (stateBeginStringOrEmpty s c).1 ≠ .scanEnd := by
  unfold stateBeginStringOrEmpty
  repeat' split
  · simp
  · intro h
    have := stateEndValue_end _ _ h
    simp [scanner.setTop] at this
  · exact stateBeginString_not_end s c

theorem state0_space (s : scanner) : state0 s ' ' = stateEndValue s ' ' := by
  simp [state0]

theorem state1_space (s : scanner) : state1 s ' ' = stateEndValue s ' ' := by
  simp [state1, state0]

theorem stateDot0_space (s : scanner) : stateDot0 s ' ' = stateEndValue s ' ' := by
  simp [stateDot0]

theorem stateE0_space (s : scanner) : stateE0 s ' ' = stateEndValue s ' ' := by
  simp [stateE0]

theorem state0_end (s : scanner) (c : Char) (h : (state0 s c).1 = .scanEnd) :
    s.parseState = [] := by
  unfold state0 at h
  split at h
  · simp at h
  · split at h
    · simp at h
    · exact stateEndValue_end s c h

theorem state1_end (s : scanner) (c : Char) (h : (state1 s c).1 = .scanEnd) :
    s.parseState = [] := by
  unfold state1 at h
  split at h
  · simp at h
  · exact state0_end s c h

theorem stateDot0_end (s : scanner) (c : Char) (h : (stateDot0 s c).1 = .scanEnd) :
    s.parseState = [] := by
  unfold stateDot0 at h
  split at h
  · simp at h
  · split at h
    · simp at h
    · exact stateEndValue_end s c h

theorem stateE0_end (s : scanner) (c : Char) (h : (stateE0 s c).1 = .scanEnd) :
    s.parseState = [] := by
  unfold stateE0 at h
  split at h
  · simp at h
  · exact stateEndValue_end s c h

theorem stateBeginValueOrEmpty_end (s : scanner) (c : Char)
    (h : (stateBeginValueOrEmpty s c).1 = .scanEnd) : s.parseState = [] := by
  unfold stateBeginValueOrEmpty at h
  split at h
  · simp at h
  · split at h
    · exact stateEndValue_end s c h
    · exact absurd h (stateBeginValue_not_end s c)

/-- When a step of a sound scanner reports the end of the top-level value at some
byte, a space in place of that byte sets `endTop` (or it is set already): what
`scanner.eof` tests. `s2` is `s` up to the byte count. -/
theorem stepFn_end (s s2 : scanner) (c : Char) (hs : s.Sound) (h1 : s2.step = s.step)
    (h2 : s2.parseState = s.parseState) (h3 : s2.endTop = s.endTop)
    (h : (s.stepFn c).1 = .scanEnd) :
    s2.endTop = true ∨ (s2.stepFn ' ').2.endTop = true := by
  unfold scanner.stepFn at h
  split at h
  all_goals rename_i hstep
  all_goals first
    | exact absurd h (stateBeginValue_not_end s c)
    | exact absurd h (stateBeginString_not_end s c)
    | exact absurd h (stateBeginStringOrEmpty_not_end s c)
    | exact absurd h (stateInString_not_end s c)
    | exact absurd h (stateInStringEsc_not_end s c)
    | exact absurd h (stateInStringEscUn_not_end _ s c)
    | exact absurd h (stateNeg_not_end s c)
    | exact absurd h (stateDot_not_end s c)
    | exact absurd h (stateE_not_end s c)
    | exact absurd h (stateESign_not_end s c)
    | exact absurd h (stateLiteral_not_end _ _ _ s c)
    | exact absurd (stateBeginValueOrEmpty_end s c h) (hs.2.2.2 hstep)
    | exact Or.inl (h3.trans (hs.2.2.1 hstep).1)
    | (right
       have hps := stateEndValue_end s c h
       unfold scanner.stepFn
       rw [h1, hstep]
       exact stateEndValue_space s2 (h2.trans hps))
    | (right
       have hps := state0_end s c h
       unfold scanner.stepFn
       rw [h1, hstep]
       simp only
       rw [state0_space]
       exact stateEndValue_space s2 (h2.trans hps))
    | (right
       have hps := state1_end s c h
       unfold scanner.stepFn
       rw [h1, hstep]
       simp only
       rw [state1_space]
       exact stateEndValue_space s2 (h2.trans hps))
    | (right
       have hps := stateDot0_end s c h
       unfold scanner.stepFn
       rw [h1, hstep]
       simp only
       rw [stateDot0_space]
       exact stateEndValue_space s2 (h2.trans hps))
    | (right
       have hps := stateE0_end s c h
       unfold scanner.stepFn
       rw [h1, hstep]
       simp only
       rw [stateE0_space]
       exact stateEndValue_space s2 (h2.trans hps))
    | simp at h

/-- The method `eof` accepts when `endTop` is set or a space sets it. -/
theorem eof_accepts (s : scanner) (herr : s.err = none)
    (h : s.endTop = true ∨ (s.stepFn ' ').2.endTop = true) : s.eof.1 ≠ .scanError := by
  unfold scanner.eof
  simp only [herr, Option.isSome_none, Bool.false_eq_true, if_false]
  by_cases h1 : s.endTop = true
  · simp [h1]
  · have h2 : (s.stepFn ' ').2.endTop = true := h.resolve_left h1
    simp [h1, h2]

theorem checkValidLoop_nil (s : scanner) (herr : s.err = none)
    (h : s.endTop = true ∨ (s.stepFn ' ').2.endTop = true) : checkValidLoop s [] = none := by
  unfold checkValidLoop
  simp [eof_accepts s herr h]

theorem Sound.with_bytes (s : scanner) (hs : s.Sound) (b : Nat) :
    scanner.Sound { s with bytes := b } := hs

theorem checkValidLoop_cons (s : scanner) (c : Char) (rest : Bytes)
    (h : ({ s with bytes := s.bytes + 1 }.stepFn c).1 ≠ .scanError) :
    checkValidLoop s (c :: rest) =
      checkValidLoop ({ s with bytes := s.bytes + 1 }.stepFn c).2 rest := by
  rw [checkValidLoop]
  simp [h]

/-- After the end of an object or array the invented space either ends the
top-level value, with `endTop` set, or leaves the scanner as it is. -/
theorem popParseState_space (s0 : scanner) :
    (s0.popParseState.endTop = true ∧ (s0.popParseState.stepFn ' ').1 = .scanEnd) ∨
    ((s0.popParseState.stepFn ' ').1 ≠ .scanEnd ∧
      (s0.popParseState.stepFn ' ').2 = s0.popParseState) := by
  unfold scanner.popParseState
  cases h : s0.parseState.tail with
  | nil => left; simp [scanner.stepFn, stateEndTop, isSpace]
  | cons a l => right; simp [scanner.stepFn, stateEndValue, isSpace]

/-- A successful `readValue` loop has scanned a well-formed JSON text: the `k` bytes
it reports pass the loop of `checkValid`. -/
theorem readValueLoop_valid (buf : Bytes) :
    ∀ (rest : Bytes) (s : scanner) (scanp n : Nat), s.Sound →
      readValueLoop buf s rest scanp = (n, none) →
      ∃ k, n = scanp + k ∧ checkValidLoop s (rest.take k) = none := by
  intro rest
  induction rest with
  | nil =>
    intro s scanp n hs h
    unfold readValueLoop at h
    split at h
    · rename_i hend
      refine ⟨0, ?_, ?_⟩
      · simp at h; omega
      · exact checkValidLoop_nil s hs.1 (stepFn_end s s ' ' hs rfl rfl rfl hend)
    · split at h <;> simp [EOF, ErrUnexpectedEOF] at h
  | cons c rest ih =>
    intro s scanp n hs h
    have hs1 : scanner.Sound { s with bytes := s.bytes + 1 } := hs
    have hr := stepFn_result _ c hs1
    rw [readValueLoop] at h
    simp only at h
    split at h
    · rename_i hend
      refine ⟨0, ?_, ?_⟩
      · simp at h; omega
      · exact checkValidLoop_nil s hs.1 (stepFn_end _ s c hs1 rfl rfl rfl hend)
    · rename_i hnend
      split at h
      · rename_i hobj
        rcases hr with ⟨he, _⟩ | ⟨he, _⟩ | ⟨_, s0, hs0, hpop⟩ | ⟨_, _, h3, h4, _⟩
        · rw [he] at hobj; simp at hobj
        · exact absurd he hnend
        · have hne : ({ s with bytes := s.bytes + 1 }.stepFn c).1 ≠ .scanError := by
            rcases hobj with h' | h' <;> rw [h'] <;> simp
          rw [hpop] at h
          rcases popParseState_space s0 with ⟨htop, hsp⟩ | ⟨hsp, hsame⟩
          · rw [if_pos hsp] at h
            refine ⟨1, ?_, ?_⟩
            · simp at h; omega
            · simp only [List.take_succ_cons, List.take_zero]
              rw [checkValidLoop_cons s c [] hne, hpop]
              exact checkValidLoop_nil _ (popParseState_sound s0 hs0).1 (Or.inl htop)
          · rw [if_neg hsp, hsame] at h
            obtain ⟨k, hk, hv⟩ := ih _ _ _ (popParseState_sound s0 hs0) h
            refine ⟨k + 1, by omega, ?_⟩
            simp only [List.take_succ_cons]
            rw [checkValidLoop_cons s c _ hne, hpop]
            exact hv
        · exact absurd hobj (by simp [h3, h4])
      · rename_i hnobj
        rcases hr with ⟨he, hsome⟩ | ⟨he, _⟩ | ⟨hobj, _⟩ | ⟨hne, _, _, _, hsound⟩
        · rw [if_pos he] at h
          simp at h
          simp [h.2] at hsome
        · exact absurd he hnend
        · exact absurd hobj hnobj
        · rw [if_neg hne] at h
          obtain ⟨k, hk, hv⟩ := ih _ _ _ hsound h
          refine ⟨k + 1, by omega, ?_⟩
          simp only [List.take_succ_cons]
          rw [checkValidLoop_cons s c _ hne]
          exact hv

theorem reset_sound : scanner.zero.reset.Sound := by
  simp [scanner.Sound, scanner.reset, scanner.zero]

/-- What `readValue` cuts out of a stream is well-formed JSON: when it reports a value
of `n` bytes, the first `n` bytes of the stream are valid. -/
theorem readValue_valid (buf : Bytes) (n : Nat) (h : readValue buf = (n, none)) :
    Valid (buf.take n) = true := by
  obtain ⟨k, hk, hv⟩ := readValueLoop_valid buf buf _ 0 n reset_sound h
  have : n = k := by omega
  subst this
  simp [Valid, checkValid, hv]

theorem stateEndTop_fst (s : scanner) (c : Char) : (stateEndTop s c).1 = .scanEnd := by
  unfold stateEndTop
  split <;> rfl

theorem stateEndValue_space_code (s : scanner) (h : s.parseState = []) :
    (stateEndValue s ' ').1 = .scanEnd := by
  simp [stateEndValue, h, stateEndTop, isSpace]

/-- When a step of a sound scanner reports the end of the top-level value at some
byte, a space in place of that byte reports it as well. `s2` is `s` up to the byte
count. -/
theorem stepFn_end_space (s s2 : scanner) (c : Char) (hs : s.Sound) (h1 : s2.step = s.step)
    (h2 : s2.parseState = s.parseState) (h : (s.stepFn c).1 = .scanEnd) :
    (s2.stepFn ' ').1 = .scanEnd := by
  unfold scanner.stepFn at h
  split at h
  all_goals rename_i hstep
  all_goals first
    | exact absurd h (stateBeginValue_not_end s c)
    | exact absurd h (stateBeginString_not_end s c)
    | exact absurd h (stateBeginStringOrEmpty_not_end s c)
    | exact absurd h (stateInString_not_end s c)
    | exact absurd h (stateInStringEsc_not_end s c)
    | exact absurd h (stateInStringEscUn_not_end _ s c)
    | exact absurd h (stateNeg_not_end s c)
    | exact absurd h (stateDot_not_end s c)
    | exact absurd h (stateE_not_end s c)
    | exact absurd h (stateESign_not_end s c)
    | exact absurd h (stateLiteral_not_end _ _ _ s c)
    | exact absurd (stateBeginValueOrEmpty_end s c h) (hs.2.2.2 hstep)
    | (have e : s2.stepFn ' ' = stateEndTop s2 ' ' := by
         unfold scanner.stepFn
         rw [h1, hstep]
       rw [e]
       exact stateEndTop_fst s2 ' ')
    | (have hps := stateEndValue_end s c h
       unfold scanner.stepFn
       rw [h1, hstep]
       exact stateEndValue_space_code s2 (h2.trans hps))
    | (have hps := state0_end s c h
       unfold scanner.stepFn
       rw [h1, hstep]
       simp only
       rw [state0_space]
       exact stateEndValue_space_code s2 (h2.trans hps))
    | (have hps := state1_end s c h
       unfold scanner.stepFn
       rw [h1, hstep]
       simp only
       rw [state1_space]
       exact stateEndValue_space_code s2 (h2.trans hps))
    | (have hps := stateDot0_end s c h
       unfold scanner.stepFn
       rw [h1, hstep]
       simp only
       rw [stateDot0_space]
       exact stateEndValue_space_code s2 (h2.trans hps))
    | (have hps := stateE0_end s c h
       unfold scanner.stepFn
       rw [h1, hstep]
       simp only
       rw [stateE0_space]
       exact stateEndValue_space_code s2 (h2.trans hps))
    | simp at h

theorem readValueLoop_nil_ok (buf : Bytes) (s : scanner) (scanp : Nat)
    (h : (s.stepFn ' ').1 = .scanEnd) : readValueLoop buf s [] scanp = (scanp, none) := by
  unfold readValueLoop
  rw [if_pos h]

/-- A successful `readValue` loop does not depend on what follows the value: on the
`k` bytes it reports alone it gives the same result. -/
theorem readValueLoop_cut (buf : Bytes) :
    ∀ (rest : Bytes) (s : scanner) (scanp n : Nat), s.Sound →
      readValueLoop buf s rest scanp = (n, none) →
      ∃ k, k ≤ rest.length ∧ n = scanp + k ∧
        ∀ buf2 : Bytes, readValueLoop buf2 s (rest.take k) scanp = (n, none) := by
  intro rest
  induction rest with
  | nil =>
    intro s scanp n hs h
    unfold readValueLoop at h
    split at h
    · rename_i hend
      have hn : scanp = n := by simp at h; omega
      subst hn
      exact ⟨0, by simp, by omega, fun buf2 => readValueLoop_nil_ok buf2 s scanp hend⟩
    · split at h <;> simp [EOF, ErrUnexpectedEOF] at h
  | cons c rest ih =>
    intro s scanp n hs h
    have hs1 : scanner.Sound { s with bytes := s.bytes + 1 } := hs
    have hr := stepFn_result _ c hs1
    rw [readValueLoop] at h
    simp only at h
    split at h
    · rename_i hend
      have hn : scanp = n := by simp at h; omega
      subst hn
      exact ⟨0, by simp, by omega, fun buf2 =>
        readValueLoop_nil_ok buf2 s scanp (stepFn_end_space _ s c hs1 rfl rfl hend)⟩
    · rename_i hnend
      split at h
      · rename_i hobj
        rcases hr with ⟨he, _⟩ | ⟨he, _⟩ | ⟨_, s0, hs0, hpop⟩ | ⟨_, _, h3, h4, _⟩
        · rw [he] at hobj; simp at hobj
        · exact absurd he hnend
        · rcases popParseState_space s0 with ⟨_, hsp⟩ | ⟨hsp, hsame⟩
          · have hsp2 : (({ s with bytes := s.bytes + 1 }.stepFn c).2.stepFn ' ').1
                = .scanEnd := by rw [hpop]; exact hsp
            rw [if_pos hsp2] at h
            have hn : scanp + 1 = n := by simp at h; omega
            subst hn
            refine ⟨1, by simp, rfl, fun buf2 => ?_⟩
            simp only [List.take_succ_cons, List.take_zero]
            rw [readValueLoop]
            simp only
            rw [if_neg hnend, if_pos hobj, if_pos hsp2]
          · have hsp2 : ¬ (({ s with bytes := s.bytes + 1 }.stepFn c).2.stepFn ' ').1
                = .scanEnd := by rw [hpop]; exact hsp
            rw [if_neg hsp2] at h
            have hsound : (({ s with bytes := s.bytes + 1 }.stepFn c).2.stepFn ' ').2.Sound := by
              rw [hpop, hsame]; exact popParseState_sound s0 hs0
            obtain ⟨k, hk1, hk2, hk3⟩ := ih _ _ _ hsound h
            refine ⟨k + 1, by simp; omega, by omega, fun buf2 => ?_⟩
            simp only [List.take_succ_cons]
            rw [readValueLoop]
            simp only
            rw [if_neg hnend, if_pos hobj, if_neg hsp2]
            exact hk3 buf2
        · exact absurd hobj (by simp [h3, h4])
      · rename_i hnobj
        rcases hr with ⟨he, hsome⟩ | ⟨he, _⟩ | ⟨hobj, _⟩ | ⟨hne, _, _, _, hsound⟩
        · rw [if_pos he] at h
          simp at h
          simp [h.2] at hsome
        · exact absurd he hnend
        · exact absurd hobj hnobj
        · rw [if_neg hne] at h
          obtain ⟨k, hk1, hk2, hk3⟩ := ih _ _ _ hsound h
          refine ⟨k + 1, by simp; omega, by omega, fun buf2 => ?_⟩
          simp only [List.take_succ_cons]
          rw [readValueLoop]
          simp only
          rw [if_neg hnend, if_neg hnobj, if_neg hne]
          exact hk3 buf2

/-- The value `readValue` reports lies inside the stream, and read on its own it is
reported again, whole. -/
theorem readValue_cut (buf : Bytes) (n : Nat) (h : readValue buf = (n, none)) :
    n ≤ buf.length ∧ readValue (buf.take n) = (n, none) := by
  obtain ⟨k, hk1, hk2, hk3⟩ := readValueLoop_cut buf buf _ 0 n reset_sound h
  have : n = k := by omega
  subst this
  exact ⟨hk1, hk3 _⟩

/-- Decoding a stream and decoding its first value alone give the same result. -/
theorem Decode_cut {Player : Type} (codec : Codec Player) (body : Bytes) (n : Nat)
    (h : readValue body = (n, none)) : Decode codec (body.take n) = Decode codec body := by
  have h2 := (readValue_cut body n h).2
  unfold Decode
  simp only [h, h2, List.take_take, Nat.min_self]

/-- A stream none of whose initial segments is well-formed JSON makes `readValue`
fail. -/
theorem readValue_error_of_no_valid_segment (body : Bytes)
    (h : ∀ n, Valid (body.take n) = false) : ∃ err, (readValue body).2 = some err := by
  cases hr : (readValue body).2 with
  | some err => exact ⟨err, rfl⟩
  | none =>
    have h1 : readValue body = ((readValue body).1, none) := by rw [← hr]
    have := readValue_valid body _ h1
    rw [h] at this
    simp at this

/-- An error of `readValue` is the error of `Decode`. -/
theorem Decode_of_readValue_error {Player : Type} (codec : Codec Player) (body : Bytes)
    (err : GoError) (h : (readValue body).2 = some err) : Decode codec body = .error err := by
  unfold Decode
  simp only [h]

end json

/-! ## The runs of the handlers, branch by branch -/

theorem encodeString_error : json.encodeString "error" = "\"error\"".data := by decide

theorem encodeString_result : json.encodeString "result" = "\"result\"".data := by decide

theorem encodeString_success : json.encodeString "success" = "\"success\"".data := by decide

/-- The bytes `json.Marshal` returns for the payload of `respondWithError`. -/
theorem Marshal_error (codec : json.Codec Player) (msg : String) :
    (json.Marshal codec (.stringMap [("error", msg)])).1 = errorBody msg := by
  simp [json.Marshal, json.commaSep, errorBody, encodeString_error]

/-- The bytes `json.Marshal` returns for the success payload. -/
theorem Marshal_success (codec : json.Codec Player) :
    (json.Marshal codec (.stringMap [("result", "success")])).1 = successBody := by
  simp [json.Marshal, json.commaSep, successBody, encodeString_result, encodeString_success]

/-- The handler `AllPlayersEndPoint` when `FindAll` returns no error. -/
theorem AllPlayersEndPoint_ok (env : Env DB Player) (request : http.Request) (db : DB)
    (h : (env.playerDAO.FindAll db).1.2 = none) :
    (AllPlayersEndPoint env request (World.init db)).db = (env.playerDAO.FindAll db).2 ∧
    (AllPlayersEndPoint env request (World.init db)).writer =
      responded 200 (json.Marshal env.codec (.players (env.playerDAO.FindAll db).1.1)).1 ∧
    (AllPlayersEndPoint env request (World.init db)).trace =
      requestLog request :: .FindAll ::
        respondEvents 200 (json.Marshal env.codec (.players (env.playerDAO.FindAll db).1.1)).1 := by
  simp [AllPlayersEndPoint, callFindAll, h, logRequestInfo, World.emit, World.init,
    respondWithJSON, World.Write, World.WriteHeader, World.HeaderSet,
    http.ResponseWriter.Write, http.ResponseWriter.WriteHeader, http.ResponseWriter.HeaderSet,
    http.ResponseWriter.fresh, http.StatusOK, responded, requestLog, respondEvents]

/-- The handler `AllPlayersEndPoint` when `FindAll` returns an error. -/
theorem AllPlayersEndPoint_err (env : Env DB Player) (request : http.Request) (db : DB)
    (err : GoError) (h : (env.playerDAO.FindAll db).1.2 = some err) :
    (AllPlayersEndPoint env request (World.init db)).db = (env.playerDAO.FindAll db).2 ∧
    (AllPlayersEndPoint env request (World.init db)).writer =
      responded 500 (errorBody err.Error) ∧
    (AllPlayersEndPoint env request (World.init db)).trace =
      requestLog request :: .FindAll :: (respondEvents 500 (errorBody err.Error) ++ [errorLog err]) := by
  simp [AllPlayersEndPoint, callFindAll, h, logRequestInfo, logError, World.emit, World.init,
    respondWithError, respondWithJSON, World.Write, World.WriteHeader, World.HeaderSet,
    http.ResponseWriter.Write, http.ResponseWriter.WriteHeader, http.ResponseWriter.HeaderSet,
    http.ResponseWriter.fresh, http.StatusInternalServerError, responded, requestLog,
    respondEvents, errorLog, Marshal_error]

/-- The handler `CreatePlayerEndPoint` when the body does not decode. -/
theorem CreatePlayerEndPoint_decode_err (env : Env DB Player) (request : http.Request) (db : DB)
    (err : GoError) (h : json.Decode env.codec request.Body = .error err) :
    (CreatePlayerEndPoint env request (World.init db)).db = db ∧
    (CreatePlayerEndPoint env request (World.init db)).writer =
      responded 500 (errorBody err.Error) ∧
    (CreatePlayerEndPoint env request (World.init db)).trace =
      requestLog request :: .decode ::
        (respondEvents 500 (errorBody err.Error) ++ [errorLog err, .bodyClose]) := by
  simp [CreatePlayerEndPoint, decodeBody, h, bodyClose, logRequestInfo, logError, World.emit,
    World.init, respondWithError, respondWithJSON, World.Write, World.WriteHeader,
    World.HeaderSet, http.ResponseWriter.Write, http.ResponseWriter.WriteHeader,
    http.ResponseWriter.HeaderSet, http.ResponseWriter.fresh, http.StatusInternalServerError,
    responded, requestLog, respondEvents, errorLog, Marshal_error]

/-- The handler `CreatePlayerEndPoint` when `Insert` returns an error. -/
theorem CreatePlayerEndPoint_call_err (env : Env DB Player) (request : http.Request) (db : DB)
    (p : Player) (err : GoError) (h : json.Decode env.codec request.Body = .ok p)
    (hc : (env.playerDAO.Insert p db).1 = some err) :
    (CreatePlayerEndPoint env request (World.init db)).db = (env.playerDAO.Insert p db).2 ∧
    (CreatePlayerEndPoint env request (World.init db)).writer =
      responded 500 (errorBody err.Error) ∧
    (CreatePlayerEndPoint env request (World.init db)).trace =
      requestLog request :: .decode :: .Insert p ::
        (respondEvents 500 (errorBody err.Error) ++ [errorLog err, .bodyClose]) := by
  simp [CreatePlayerEndPoint, decodeBody, callInsert, h, hc, bodyClose, logRequestInfo, logError,
    World.emit, World.init, respondWithError, respondWithJSON, World.Write, World.WriteHeader,
    World.HeaderSet, http.ResponseWriter.Write, http.ResponseWriter.WriteHeader,
    http.ResponseWriter.HeaderSet, http.ResponseWriter.fresh, http.StatusInternalServerError,
    responded, requestLog, respondEvents, errorLog, Marshal_error]

/-- The handler `CreatePlayerEndPoint` when `Insert` returns no error. -/
theorem CreatePlayerEndPoint_ok (env : Env DB Player) (request : http.Request) (db : DB)
    (p : Player) (h : json.Decode env.codec request.Body = .ok p)
    (hc : (env.playerDAO.Insert p db).1 = none) :
    (CreatePlayerEndPoint env request (World.init db)).db = (env.playerDAO.Insert p db).2 ∧
    (CreatePlayerEndPoint env request (World.init db)).writer = responded 200 successBody ∧
    (CreatePlayerEndPoint env request (World.init db)).trace =
      requestLog request :: .decode :: .Insert p ::
        (respondEvents 200 successBody ++ [.bodyClose]) := by
  simp [CreatePlayerEndPoint, decodeBody, callInsert, h, hc, bodyClose, logRequestInfo,
    World.emit, World.init, respondWithJSON, World.Write, World.WriteHeader,
    World.HeaderSet, http.ResponseWriter.Write, http.ResponseWriter.WriteHeader,
    http.ResponseWriter.HeaderSet, http.ResponseWriter.fresh, http.StatusOK,
    responded, requestLog, respondEvents, Marshal_success]

/-- The handler `UpdatePlayerEndPoint` when the body does not decode. -/
theorem UpdatePlayerEndPoint_decode_err (env : Env DB Player) (request : http.Request) (db : DB)
    (err : GoError) (h : json.Decode env.codec request.Body = .error err) :
    (UpdatePlayerEndPoint env request (World.init db)).db = db ∧
    (UpdatePlayerEndPoint env request (World.init db)).writer =
      responded 500 (errorBody err.Error) ∧
    (UpdatePlayerEndPoint env request (World.init db)).trace =
      requestLog request :: .decode ::
        (respondEvents 500 (errorBody err.Error) ++ [errorLog err, .bodyClose]) := by
  simp [UpdatePlayerEndPoint, decodeBody, h, bodyClose, logRequestInfo, logError, World.emit,
    World.init, respondWithError, respondWithJSON, World.Write, World.WriteHeader,
    World.HeaderSet, http.ResponseWriter.Write, http.ResponseWriter.WriteHeader,
    http.ResponseWriter.HeaderSet, http.ResponseWriter.fresh, http.StatusInternalServerError,
    responded, requestLog, respondEvents, errorLog, Marshal_error]

/-- The handler `UpdatePlayerEndPoint` when `Update` returns an error. -/
theorem UpdatePlayerEndPoint_call_err (env : Env DB Player) (request : http.Request) (db : DB)
    (p : Player) (err : GoError) (h : json.Decode env.codec request.Body = .ok p)
    (hc : (env.playerDAO.Update p db).1 = some err) :
    (UpdatePlayerEndPoint env request (World.init db)).db = (env.playerDAO.Update p db).2 ∧
    (UpdatePlayerEndPoint env request (World.init db)).writer =
      responded 500 (errorBody err.Error) ∧
    (UpdatePlayerEndPoint env request (World.init db)).trace =
      requestLog request :: .decode :: .Update p ::
        (respondEvents 500 (errorBody err.Error) ++ [errorLog err, .bodyClose]) := by
  simp [UpdatePlayerEndPoint, decodeBody, callUpdate, h, hc, bodyClose, logRequestInfo, logError,
    World.emit, World.init, respondWithError, respondWithJSON, World.Write, World.WriteHeader,
    World.HeaderSet, http.ResponseWriter.Write, http.ResponseWriter.WriteHeader,
    http.ResponseWriter.HeaderSet, http.ResponseWriter.fresh, http.StatusInternalServerError,
    responded, requestLog, respondEvents, errorLog, Marshal_error]

/-- The handler `UpdatePlayerEndPoint` when `Update` returns no error. -/
theorem UpdatePlayerEndPoint_ok (env : Env DB Player) (request : http.Request) (db : DB)
    (p : Player) (h : json.Decode env.codec request.Body = .ok p)
    (hc : (env.playerDAO.Update p db).1 = none) :
    (UpdatePlayerEndPoint env request (World.init db)).db = (env.playerDAO.Update p db).2 ∧
    (UpdatePlayerEndPoint env request (World.init db)).writer = responded 200 successBody ∧
    (UpdatePlayerEndPoint env request (World.init db)).trace =
      requestLog request :: .decode :: .Update p ::
        (respondEvents 200 successBody ++ [.bodyClose]) := by
  simp [UpdatePlayerEndPoint, decodeBody, callUpdate, h, hc, bodyClose, logRequestInfo,
    World.emit, World.init, respondWithJSON, World.Write, World.WriteHeader,
    World.HeaderSet, http.ResponseWriter.Write, http.ResponseWriter.WriteHeader,
    http.ResponseWriter.HeaderSet, http.ResponseWriter.fresh, http.StatusOK,
    responded, requestLog, respondEvents, Marshal_success]

/-- The handler `DeletePlayerEndPoint` when the body does not decode. -/
theorem DeletePlayerEndPoint_decode_err (env : Env DB Player) (request : http.Request) (db : DB)
    (err : GoError) (h : json.Decode env.codec request.Body = .error err) :
    (DeletePlayerEndPoint env request (World.init db)).db = db ∧
    (DeletePlayerEndPoint env request (World.init db)).writer =
      responded 500 (errorBody err.Error) ∧
    (DeletePlayerEndPoint env request (World.init db)).trace =
      requestLog request :: .decode ::
        (respondEvents 500 (errorBody err.Error) ++ [errorLog err, .bodyClose]) := by
  simp [DeletePlayerEndPoint, decodeBody, h, bodyClose, logRequestInfo, logError, World.emit,
    World.init, respondWithError, respondWithJSON, World.Write, World.WriteHeader,
    World.HeaderSet, http.ResponseWriter.Write, http.ResponseWriter.WriteHeader,
    http.ResponseWriter.HeaderSet, http.ResponseWriter.fresh, http.StatusInternalServerError,
    responded, requestLog, respondEvents, errorLog, Marshal_error]

/-- The handler `DeletePlayerEndPoint` when `Delete` returns an error. -/
theorem DeletePlayerEndPoint_call_err (env : Env DB Player) (request : http.Request) (db : DB)
    (p : Player) (err : GoError) (h : json.Decode env.codec request.Body = .ok p)
    (hc : (env.playerDAO.Delete p db).1 = some err) :
    (DeletePlayerEndPoint env request (World.init db)).db = (env.playerDAO.Delete p db).2 ∧
    (DeletePlayerEndPoint env request (World.init db)).writer =
      responded 500 (errorBody err.Error) ∧
    (DeletePlayerEndPoint env request (World.init db)).trace =
      requestLog request :: .decode :: .Delete p ::
        (respondEvents 500 (errorBody err.Error) ++ [errorLog err, .bodyClose]) := by
  simp [DeletePlayerEndPoint, decodeBody, callDelete, h, hc, bodyClose, logRequestInfo, logError,
    World.emit, World.init, respondWithError, respondWithJSON, World.Write, World.WriteHeader,
    World.HeaderSet, http.ResponseWriter.Write, http.ResponseWriter.WriteHeader,
    http.ResponseWriter.HeaderSet, http.ResponseWriter.fresh, http.StatusInternalServerError,
    responded, requestLog, respondEvents, errorLog, Marshal_error]

/-- The handler `DeletePlayerEndPoint` when `Delete` returns no error. -/
theorem DeletePlayerEndPoint_ok (env : Env DB Player) (request : http.Request) (db : DB)
    (p : Player) (h : json.Decode env.codec request.Body = .ok p)
    (hc : (env.playerDAO.Delete p db).1 = none) :
    (DeletePlayerEndPoint env request (World.init db)).db = (env.playerDAO.Delete p db).2 ∧
    (DeletePlayerEndPoint env request (World.init db)).writer = responded 200 successBody ∧
    (DeletePlayerEndPoint env request (World.init db)).trace =
      requestLog request :: .decode :: .Delete p ::
        (respondEvents 200 successBody ++ [.bodyClose]) := by
  simp [DeletePlayerEndPoint, decodeBody, callDelete, h, hc, bodyClose, logRequestInfo,
    World.emit, World.init, respondWithJSON, World.Write, World.WriteHeader,
    World.HeaderSet, http.ResponseWriter.Write, http.ResponseWriter.WriteHeader,
    http.ResponseWriter.HeaderSet, http.ResponseWriter.fresh, http.StatusOK,
    responded, requestLog, respondEvents, Marshal_success]

/-- The handler `FindPlayerByIDEndPoint` when `FindByID` returns no error. -/
theorem FindPlayerByIDEndPoint_ok (env : Env DB Player) (request : http.Request) (db : DB)
    (h : (env.playerDAO.FindByID (muxVar request "id") db).1.2 = none) :
    (FindPlayerByIDEndPoint env request (World.init db)).db =
      (env.playerDAO.FindByID (muxVar request "id") db).2 ∧
    (FindPlayerByIDEndPoint env request (World.init db)).writer =
      responded 200 (env.codec.marshal (env.playerDAO.FindByID (muxVar request "id") db).1.1) ∧
    (FindPlayerByIDEndPoint env request (World.init db)).trace =
      requestLog request ::
        .log { level := .InfoLevel, fields := [], message := muxVar request "id" } ::
        .FindByID (muxVar request "id") ::
        respondEvents 200
          (env.codec.marshal (env.playerDAO.FindByID (muxVar request "id") db).1.1) := by
  simp [FindPlayerByIDEndPoint, callFindByID, h, logRequestInfo, logInfo, World.emit, World.init,
    respondWithJSON, World.Write, World.WriteHeader, World.HeaderSet,
    http.ResponseWriter.Write, http.ResponseWriter.WriteHeader, http.ResponseWriter.HeaderSet,
    http.ResponseWriter.fresh, http.StatusOK, responded, requestLog, respondEvents, json.Marshal]

/-- The handler `FindPlayerByIDEndPoint` when `FindByID` returns an error. -/
theorem FindPlayerByIDEndPoint_err (env : Env DB Player) (request : http.Request) (db : DB)
    (err : GoError) (h : (env.playerDAO.FindByID (muxVar request "id") db).1.2 = some err) :
    (FindPlayerByIDEndPoint env request (World.init db)).db =
      (env.playerDAO.FindByID (muxVar request "id") db).2 ∧
    (FindPlayerByIDEndPoint env request (World.init db)).writer =
      responded 500 (errorBody err.Error) ∧
    (FindPlayerByIDEndPoint env request (World.init db)).trace =
      requestLog request ::
        .log { level := .InfoLevel, fields := [], message := muxVar request "id" } ::
        .FindByID (muxVar request "id") ::
        (respondEvents 500 (errorBody err.Error) ++ [errorLog err]) := by
  simp [FindPlayerByIDEndPoint, callFindByID, h, logRequestInfo, logInfo, logError, World.emit,
    World.init, respondWithError, respondWithJSON, World.Write, World.WriteHeader,
    World.HeaderSet, http.ResponseWriter.Write, http.ResponseWriter.WriteHeader,
    http.ResponseWriter.HeaderSet, http.ResponseWriter.fresh, http.StatusInternalServerError,
    responded, requestLog, respondEvents, errorLog, Marshal_error]

/-! ## The claims -/

/-- C1, as stated, fails: it is not so that whenever `FindAll` returns players
without error the body is the JSON array of the encodings of the returned players.
When the returned slice is nil, the body is `null`. -/
theorem array_body_fails_for_nil_slice :
    ¬ ∀ (env : Env Unit SamplePlayer) (request : http.Request) (db : Unit)
        (players : Slice SamplePlayer),
        (env.playerDAO.FindAll db).1 = (players, none) →
        (AllPlayersEndPoint env request (World.init db)).writer.status = 200 ∧
        (AllPlayersEndPoint env request (World.init db)).writer.body =
          '[' :: (json.commaSep ((players.getD []).map env.codec.marshal) ++ [']']) := by
  intro h
  have h1 := (h ⟨sampleCodec, nilDAO⟩ (sampleRequest "GET" "/players" "" [("page", "1")]) ()
    none rfl).2
  revert h1
  decide

/-- C1, amended. `AllPlayersEndPoint` (`GET /players`): when `FindAll` returns a
non-nil slice holding the list `l` of players and no error, the response has status
200 and its body is the JSON array of the encodings of exactly the players of `l`, in
order; when `FindAll` returns the nil slice and no error, the response has status 200
and its body is `null`; when `FindAll` returns an error `e`, the response has status
500 and its body is the object with the one member `error`, its value the message of
`e`. -/
theorem AllPlayersEndPoint_contract (env : Env DB Player) (request : http.Request) (db : DB) :
    (∀ l : List Player, (env.playerDAO.FindAll db).1 = (some l, none) →
      (AllPlayersEndPoint env request (World.init db)).writer.status = 200 ∧
      (AllPlayersEndPoint env request (World.init db)).writer.body =
        '[' :: (json.commaSep (l.map env.codec.marshal) ++ [']'])) ∧
    ((env.playerDAO.FindAll db).1 = (none, none) →
      (AllPlayersEndPoint env request (World.init db)).writer.status = 200 ∧
      (AllPlayersEndPoint env request (World.init db)).writer.body = "null".data) ∧
    (∀ (players : Slice Player) (e : GoError),
      (env.playerDAO.FindAll db).1 = (players, some e) →
      (AllPlayersEndPoint env request (World.init db)).writer.status = 500 ∧
      (AllPlayersEndPoint env request (World.init db)).writer.body = errorBody e.Error) := by
  refine ⟨?_, ?_, ?_⟩
  · intro l h
    have h2 : (env.playerDAO.FindAll db).1.2 = none := by rw [h]
    have h1 : (env.playerDAO.FindAll db).1.1 = some l := by rw [h]
    rw [(AllPlayersEndPoint_ok env request db h2).2.1, h1]
    simp [responded, json.Marshal]
  · intro h
    have h2 : (env.playerDAO.FindAll db).1.2 = none := by rw [h]
    have h1 : (env.playerDAO.FindAll db).1.1 = none := by rw [h]
    rw [(AllPlayersEndPoint_ok env request db h2).2.1, h1]
    simp [responded, json.Marshal]
  · intro players e h
    have h2 : (env.playerDAO.FindAll db).1.2 = some e := by rw [h]
    rw [(AllPlayersEndPoint_err env request db e h2).2.1]
    simp [responded]

/-- Witness of the amended C1: two stored players are listed as a two-element array,
a nil slice is written as `null`, and a lost connection is answered with status 500
and the error object. -/
theorem AllPlayersEndPoint_contract_witness :
    ((AllPlayersEndPoint sampleEnv (sampleRequest "GET" "/players" "" [])
        (World.init [⟨"p1", "Ada"⟩, ⟨"p2", "Bob"⟩])).writer.status = 200 ∧
     (AllPlayersEndPoint sampleEnv (sampleRequest "GET" "/players" "" [])
        (World.init [⟨"p1", "Ada"⟩, ⟨"p2", "Bob"⟩])).writer.body =
       "[\x7b\"id\":\"p1\",\"name\":\"Ada\"\x7d,\x7b\"id\":\"p2\",\"name\":\"Bob\"\x7d]".data) ∧
    ((AllPlayersEndPoint ⟨sampleCodec, nilDAO⟩ (sampleRequest "GET" "/players/" "" [])
        (World.init ())).writer.status = 200 ∧
     (AllPlayersEndPoint ⟨sampleCodec, nilDAO⟩ (sampleRequest "GET" "/players/" "" [])
        (World.init ())).writer.body = "null".data) ∧
    ((AllPlayersEndPoint ⟨sampleCodec, failingDAO "no reachable servers"⟩
        (sampleRequest "GET" "/players" "" []) (World.init [])).writer.status = 500 ∧
     (AllPlayersEndPoint ⟨sampleCodec, failingDAO "no reachable servers"⟩
        (sampleRequest "GET" "/players" "" []) (World.init [])).writer.body =
       "\x7b\"error\":\"no reachable servers\"\x7d".data) :=
  ⟨(AllPlayersEndPoint_contract sampleEnv (sampleRequest "GET" "/players" "" [])
      [⟨"p1", "Ada"⟩, ⟨"p2", "Bob"⟩]).1 [⟨"p1", "Ada"⟩, ⟨"p2", "Bob"⟩] rfl,
   (AllPlayersEndPoint_contract ⟨sampleCodec, nilDAO⟩
      (sampleRequest "GET" "/players/" "" []) ()).2.1 rfl,
   (AllPlayersEndPoint_contract ⟨sampleCodec, failingDAO "no reachable servers"⟩
      (sampleRequest "GET" "/players" "" []) []).2.2 none ⟨"no reachable servers"⟩ rfl⟩

/-- C2. For `CreatePlayerEndPoint`, `UpdatePlayerEndPoint` and `DeletePlayerEndPoint`
and every request whose body decodes to a player `p`: the handler's only call of the
data-access object is `Insert p`, `Update p`, respectively `Delete p`, made once on
the database as it was found; and when that call returns no error, the response has
status 200 and its body is exactly the text of the object with the member
`result` set to `success`. -/
theorem writing_handlers_contract (env : Env DB Player) (request : http.Request) (db : DB)
    (p : Player) (hdec : json.Decode env.codec request.Body = .ok p) :
    ((CreatePlayerEndPoint env request (World.init db)).trace.filter Event.isDAO = [.Insert p] ∧
     (CreatePlayerEndPoint env request (World.init db)).db = (env.playerDAO.Insert p db).2 ∧
     ((env.playerDAO.Insert p db).1 = none →
       (CreatePlayerEndPoint env request (World.init db)).writer.status = 200 ∧
       (CreatePlayerEndPoint env request (World.init db)).writer.body =
         "\x7b\"result\":\"success\"\x7d".data)) ∧
    ((UpdatePlayerEndPoint env request (World.init db)).trace.filter Event.isDAO = [.Update p] ∧
     (UpdatePlayerEndPoint env request (World.init db)).db = (env.playerDAO.Update p db).2 ∧
     ((env.playerDAO.Update p db).1 = none →
       (UpdatePlayerEndPoint env request (World.init db)).writer.status = 200 ∧
       (UpdatePlayerEndPoint env request (World.init db)).writer.body =
         "\x7b\"result\":\"success\"\x7d".data)) ∧
    ((DeletePlayerEndPoint env request (World.init db)).trace.filter Event.isDAO = [.Delete p] ∧
     (DeletePlayerEndPoint env request (World.init db)).db = (env.playerDAO.Delete p db).2 ∧
     ((env.playerDAO.Delete p db).1 = none →
       (DeletePlayerEndPoint env request (World.init db)).writer.status = 200 ∧
       (DeletePlayerEndPoint env request (World.init db)).writer.body =
         "\x7b\"result\":\"success\"\x7d".data)) := by
  refine ⟨?_, ?_, ?_⟩
  · cases hc : (env.playerDAO.Insert p db).1 with
    | none =>
      obtain ⟨h1, h2, h3⟩ := CreatePlayerEndPoint_ok env request db p hdec hc
      rw [h1, h2, h3]
      simp [List.filter, Event.isDAO, respondEvents, responded, successBody, requestLog]
    | some err =>
      obtain ⟨h1, h2, h3⟩ := CreatePlayerEndPoint_call_err env request db p err hdec hc
      rw [h1, h3]
      simp [List.filter, Event.isDAO, respondEvents, errorLog, requestLog]
  · cases hc : (env.playerDAO.Update p db).1 with
    | none =>
      obtain ⟨h1, h2, h3⟩ := UpdatePlayerEndPoint_ok env request db p hdec hc
      rw [h1, h2, h3]
      simp [List.filter, Event.isDAO, respondEvents, responded, successBody, requestLog]
    | some err =>
      obtain ⟨h1, h2, h3⟩ := UpdatePlayerEndPoint_call_err env request db p err hdec hc
      rw [h1, h3]
      simp [List.filter, Event.isDAO, respondEvents, errorLog, requestLog]
  · cases hc : (env.playerDAO.Delete p db).1 with
    | none =>
      obtain ⟨h1, h2, h3⟩ := DeletePlayerEndPoint_ok env request db p hdec hc
      rw [h1, h2, h3]
      simp [List.filter, Event.isDAO, respondEvents, responded, successBody, requestLog]
    | some err =>
      obtain ⟨h1, h2, h3⟩ := DeletePlayerEndPoint_call_err env request db p err hdec hc
      rw [h1, h3]
      simp [List.filter, Event.isDAO, respondEvents, errorLog, requestLog]

/-- Witness of C2: a player posted to an empty collection, and the same player put to
and deleted from a collection that holds an older record of it. -/
theorem writing_handlers_contract_witness :
    json.Decode sampleEnv.codec "\x7b\"id\":\"p1\",\"name\":\"Ada\"\x7d".data
      = .ok ⟨"p1", "Ada"⟩ ∧
    ((CreatePlayerEndPoint sampleEnv
        (sampleRequest "POST" "/players" "\x7b\"id\":\"p1\",\"name\":\"Ada\"\x7d" [])
        (World.init [])).writer.status = 200 ∧
     (CreatePlayerEndPoint sampleEnv
        (sampleRequest "POST" "/players" "\x7b\"id\":\"p1\",\"name\":\"Ada\"\x7d" [])
        (World.init [])).writer.body = "\x7b\"result\":\"success\"\x7d".data) ∧
    ((UpdatePlayerEndPoint sampleEnv
        (sampleRequest "PUT" "/players" "\x7b\"id\":\"p1\",\"name\":\"Ada\"\x7d" [])
        (World.init [⟨"p1", "A."⟩])).writer.status = 200 ∧
     (UpdatePlayerEndPoint sampleEnv
        (sampleRequest "PUT" "/players" "\x7b\"id\":\"p1\",\"name\":\"Ada\"\x7d" [])
        (World.init [⟨"p1", "A."⟩])).db = [⟨"p1", "Ada"⟩]) ∧
    ((DeletePlayerEndPoint sampleEnv
        (sampleRequest "DELETE" "/players" "\x7b\"id\":\"p1\",\"name\":\"Ada\"\x7d" [])
        (World.init [⟨"p1", "A."⟩])).writer.status = 200 ∧
     (DeletePlayerEndPoint sampleEnv
        (sampleRequest "DELETE" "/players" "\x7b\"id\":\"p1\",\"name\":\"Ada\"\x7d" [])
        (World.init [⟨"p1", "A."⟩])).db = []) :=
  ⟨rfl,
   (writing_handlers_contract sampleEnv
      (sampleRequest "POST" "/players" "\x7b\"id\":\"p1\",\"name\":\"Ada\"\x7d" []) []
      ⟨"p1", "Ada"⟩ rfl).1.2.2 (by decide),
   ⟨((writing_handlers_contract sampleEnv
      (sampleRequest "PUT" "/players" "\x7b\"id\":\"p1\",\"name\":\"Ada\"\x7d" [])
      [⟨"p1", "A."⟩] ⟨"p1", "Ada"⟩ rfl).2.1.2.2 (by decide)).1, by decide⟩,
   ⟨((writing_handlers_contract sampleEnv
      (sampleRequest "DELETE" "/players" "\x7b\"id\":\"p1\",\"name\":\"Ada\"\x7d" [])
      [⟨"p1", "A."⟩] ⟨"p1", "Ada"⟩ rfl).2.2.2.2 (by decide)).1, by decide⟩⟩

/-- C4. `FindPlayerByIDEndPoint` (`GET /players/{id}`): the handler's only call of the
data-access object is `FindByID` with exactly the value of the path variable `id`;
when it returns a player and no error, the response has status 200 and its body is
the JSON encoding of that player; when it returns an error, the response has status
500 (and the error object as its body). -/
theorem FindPlayerByIDEndPoint_contract (env : Env DB Player) (request : http.Request)
    (db : DB) :
    (FindPlayerByIDEndPoint env request (World.init db)).trace.filter Event.isDAO =
      [.FindByID ((request.Vars.lookup "id").getD "")] ∧
    (∀ p : Player, (env.playerDAO.FindByID ((request.Vars.lookup "id").getD "") db).1 = (p, none) →
      (FindPlayerByIDEndPoint env request (World.init db)).writer.status = 200 ∧
      (FindPlayerByIDEndPoint env request (World.init db)).writer.body = env.codec.marshal p) ∧
    (∀ (p : Player) (e : GoError),
      (env.playerDAO.FindByID ((request.Vars.lookup "id").getD "") db).1 = (p, some e) →
      (FindPlayerByIDEndPoint env request (World.init db)).writer.status = 500 ∧
      (FindPlayerByIDEndPoint env request (World.init db)).writer.body = errorBody e.Error) := by
  refine ⟨?_, ?_, ?_⟩
  · cases hc : (env.playerDAO.FindByID (muxVar request "id") db).1.2 with
    | none =>
      rw [(FindPlayerByIDEndPoint_ok env request db hc).2.2]
      simp [List.filter, Event.isDAO, respondEvents, requestLog, muxVar]
    | some err =>
      rw [(FindPlayerByIDEndPoint_err env request db err hc).2.2]
      simp [List.filter, Event.isDAO, respondEvents, requestLog, errorLog, muxVar]
  · intro p h
    have h2 : (env.playerDAO.FindByID (muxVar request "id") db).1.2 = none := by
      unfold muxVar; rw [h]
    have h1 : (env.playerDAO.FindByID (muxVar request "id") db).1.1 = p := by
      unfold muxVar; rw [h]
    rw [(FindPlayerByIDEndPoint_ok env request db h2).2.1, h1]
    simp [responded]
  · intro p e h
    have h2 : (env.playerDAO.FindByID (muxVar request "id") db).1.2 = some e := by
      unfold muxVar; rw [h]
    rw [(FindPlayerByIDEndPoint_err env request db e h2).2.1]
    simp [responded]

/-- Witness of C4: a stored player is found and returned, an unknown identity is
answered with status 500. -/
theorem FindPlayerByIDEndPoint_contract_witness :
    ((FindPlayerByIDEndPoint sampleEnv (sampleRequest "GET" "/players/p2" "" [("id", "p2")])
        (World.init [⟨"p1", "Ada"⟩, ⟨"p2", "Bob"⟩])).writer.status = 200 ∧
     (FindPlayerByIDEndPoint sampleEnv (sampleRequest "GET" "/players/p2" "" [("id", "p2")])
        (World.init [⟨"p1", "Ada"⟩, ⟨"p2", "Bob"⟩])).writer.body =
       "\x7b\"id\":\"p2\",\"name\":\"Bob\"\x7d".data) ∧
    ((FindPlayerByIDEndPoint sampleEnv (sampleRequest "GET" "/players/p3" "" [("id", "p3")])
        (World.init [⟨"p1", "Ada"⟩, ⟨"p2", "Bob"⟩])).writer.status = 500 ∧
     (FindPlayerByIDEndPoint sampleEnv (sampleRequest "GET" "/players/p3" "" [("id", "p3")])
        (World.init [⟨"p1", "Ada"⟩, ⟨"p2", "Bob"⟩])).writer.body =
       "\x7b\"error\":\"not found\"\x7d".data) :=
  ⟨(FindPlayerByIDEndPoint_contract sampleEnv
      (sampleRequest "GET" "/players/p2" "" [("id", "p2")])
      [⟨"p1", "Ada"⟩, ⟨"p2", "Bob"⟩]).2.1 ⟨"p2", "Bob"⟩ (by decide),
   (FindPlayerByIDEndPoint_contract sampleEnv
      (sampleRequest "GET" "/players/p3" "" [("id", "p3")])
      [⟨"p1", "Ada"⟩, ⟨"p2", "Bob"⟩]).2.2 default ⟨"not found"⟩ (by decide)⟩

/-! ### Properties of every run -/

theorem isRequestLog_requestLog (request : http.Request) :
    (requestLog request : Event Player).isRequestLog request = true := by
  simp [requestLog, Event.isRequestLog, List.lookup]

theorem AllPlayersEndPoint_shape (env : Env DB Player) (request : http.Request) (db : DB) :
    RunShape request (AllPlayersEndPoint env request (World.init db)) := by
  cases hc : (env.playerDAO.FindAll db).1.2 with
  | none =>
    obtain ⟨-, h2, h3⟩ := AllPlayersEndPoint_ok env request db hc
    exact ⟨_, _, [.FindAll], [], h2, by rw [h3]; simp,
      by simp [Event.isWriteHeader, Event.isWrite, Event.isRequestLog]⟩
  | some err =>
    obtain ⟨-, h2, h3⟩ := AllPlayersEndPoint_err env request db err hc
    exact ⟨_, _, [.FindAll], [errorLog err], h2, by rw [h3]; simp,
      by simp [Event.isWriteHeader, Event.isWrite, Event.isRequestLog, errorLog, List.lookup]⟩

theorem FindPlayerByIDEndPoint_shape (env : Env DB Player) (request : http.Request) (db : DB) :
    RunShape request (FindPlayerByIDEndPoint env request (World.init db)) := by
  cases hc : (env.playerDAO.FindByID (muxVar request "id") db).1.2 with
  | none =>
    obtain ⟨-, h2, h3⟩ := FindPlayerByIDEndPoint_ok env request db hc
    exact ⟨_, _, [.log { level := .InfoLevel, fields := [], message := muxVar request "id" },
        .FindByID (muxVar request "id")], [], h2, by rw [h3]; simp,
      by simp [Event.isWriteHeader, Event.isWrite, Event.isRequestLog, List.lookup]⟩
  | some err =>
    obtain ⟨-, h2, h3⟩ := FindPlayerByIDEndPoint_err env request db err hc
    exact ⟨_, _, [.log { level := .InfoLevel, fields := [], message := muxVar request "id" },
        .FindByID (muxVar request "id")], [errorLog err], h2, by rw [h3]; simp,
      by simp [Event.isWriteHeader, Event.isWrite, Event.isRequestLog, errorLog, List.lookup]⟩

theorem CreatePlayerEndPoint_shape (env : Env DB Player) (request : http.Request) (db : DB) :
    RunShape request (CreatePlayerEndPoint env request (World.init db)) := by
  cases hd : json.Decode env.codec request.Body with
  | error err =>
    obtain ⟨-, h2, h3⟩ := CreatePlayerEndPoint_decode_err env request db err hd
    exact ⟨_, _, [.decode], [errorLog err, .bodyClose], h2, by rw [h3]; simp,
      by simp [Event.isWriteHeader, Event.isWrite, Event.isRequestLog, errorLog, List.lookup]⟩
  | ok p =>
    cases hc : (env.playerDAO.Insert p db).1 with
    | none =>
      obtain ⟨-, h2, h3⟩ := CreatePlayerEndPoint_ok env request db p hd hc
      exact ⟨_, _, [.decode, .Insert p], [.bodyClose], h2, by rw [h3]; simp,
        by simp [Event.isWriteHeader, Event.isWrite, Event.isRequestLog]⟩
    | some err =>
      obtain ⟨-, h2, h3⟩ := CreatePlayerEndPoint_call_err env request db p err hd hc
      exact ⟨_, _, [.decode, .Insert p], [errorLog err, .bodyClose], h2, by rw [h3]; simp,
        by simp [Event.isWriteHeader, Event.isWrite, Event.isRequestLog, errorLog, List.lookup]⟩

theorem UpdatePlayerEndPoint_shape (env : Env DB Player) (request : http.Request) (db : DB) :
    RunShape request (UpdatePlayerEndPoint env request (World.init db)) := by
  cases hd : json.Decode env.codec request.Body with
  | error err =>
    obtain ⟨-, h2, h3⟩ := UpdatePlayerEndPoint_decode_err env request db err hd
    exact ⟨_, _, [.decode], [errorLog err, .bodyClose], h2, by rw [h3]; simp,
      by simp [Event.isWriteHeader, Event.isWrite, Event.isRequestLog, errorLog, List.lookup]⟩
  | ok p =>
    cases hc : (env.playerDAO.Update p db).1 with
    | none =>
      obtain ⟨-, h2, h3⟩ := UpdatePlayerEndPoint_ok env request db p hd hc
      exact ⟨_, _, [.decode, .Update p], [.bodyClose], h2, by rw [h3]; simp,
        by simp [Event.isWriteHeader, Event.isWrite, Event.isRequestLog]⟩
    | some err =>
      obtain ⟨-, h2, h3⟩ := UpdatePlayerEndPoint_call_err env request db p err hd hc
      exact ⟨_, _, [.decode, .Update p], [errorLog err, .bodyClose], h2, by rw [h3]; simp,
        by simp [Event.isWriteHeader, Event.isWrite, Event.isRequestLog, errorLog, List.lookup]⟩

theorem DeletePlayerEndPoint_shape (env : Env DB Player) (request : http.Request) (db : DB) :
    RunShape request (DeletePlayerEndPoint env request (World.init db)) := by
  cases hd : json.Decode env.codec request.Body with
  | error err =>
    obtain ⟨-, h2, h3⟩ := DeletePlayerEndPoint_decode_err env request db err hd
    exact ⟨_, _, [.decode], [errorLog err, .bodyClose], h2, by rw [h3]; simp,
      by simp [Event.isWriteHeader, Event.isWrite, Event.isRequestLog, errorLog, List.lookup]⟩
  | ok p =>
    cases hc : (env.playerDAO.Delete p db).1 with
    | none =>
      obtain ⟨-, h2, h3⟩ := DeletePlayerEndPoint_ok env request db p hd hc
      exact ⟨_, _, [.decode, .Delete p], [.bodyClose], h2, by rw [h3]; simp,
        by simp [Event.isWriteHeader, Event.isWrite, Event.isRequestLog]⟩
    | some err =>
      obtain ⟨-, h2, h3⟩ := DeletePlayerEndPoint_call_err env request db p err hd hc
      exact ⟨_, _, [.decode, .Delete p], [errorLog err, .bodyClose], h2, by rw [h3]; simp,
        by simp [Event.isWriteHeader, Event.isWrite, Event.isRequestLog, errorLog, List.lookup]⟩

theorem RunShape.sendsJSONContentType {request : http.Request} {σ : World DB Player}
    (h : RunShape request σ) : SendsJSONContentType σ := by
  obtain ⟨code, body, mid, post, hw, ht, hall⟩ := h
  refine ⟨by rw [hw]; simp [responded, List.lookup], requestLog request :: mid,
    .write body :: post, code, by rw [ht]; simp [respondEvents], ?_⟩
  simp only [List.all_append, Bool.and_eq_true] at hall
  simp only [List.all_cons, Bool.and_eq_true]
  refine ⟨by simp [requestLog, Event.isWriteHeader, Event.isWrite], ?_⟩
  rw [List.all_eq_true] at hall ⊢
  intro e he
  have := hall.1 e he
  simp only [Bool.and_eq_true] at this
  simp [this.1.1, this.1.2]

theorem RunShape.logsRequestFirst {request : http.Request} {σ : World DB Player}
    (h : RunShape request σ) : LogsRequestFirst request σ := by
  obtain ⟨code, body, mid, post, hw, ht, hall⟩ := h
  refine ⟨requestLog request, _, ht, isRequestLog_requestLog request, ?_⟩
  simp only [List.all_append, Bool.and_eq_true, List.all_eq_true] at hall ⊢
  refine ⟨fun e he => ?_, by simp [respondEvents, Event.isRequestLog], fun e he => ?_⟩
  · have := hall.1 e he; simp only [Bool.and_eq_true] at this; exact this.2
  · have := hall.2 e he; simp only [Bool.and_eq_true] at this; exact this.2

theorem RunShape.writesOneResponse {request : http.Request} {σ : World DB Player}
    (h : RunShape request σ) : WritesOneResponse σ := by
  obtain ⟨code, body, mid, post, hw, ht, hall⟩ := h
  simp only [List.all_append, Bool.and_eq_true, List.all_eq_true] at hall
  have hmid1 : mid.countP Event.isWriteHeader = 0 := by
    rw [List.countP_eq_zero]
    intro e he
    have := hall.1 e he; simp only [Bool.and_eq_true] at this
    simpa using this.1.1
  have hmid2 : mid.countP Event.isWrite = 0 := by
    rw [List.countP_eq_zero]
    intro e he
    have := hall.1 e he; simp only [Bool.and_eq_true] at this
    simpa using this.1.2
  have hpost1 : post.countP Event.isWriteHeader = 0 := by
    rw [List.countP_eq_zero]
    intro e he
    have := hall.2 e he; simp only [Bool.and_eq_true] at this
    simpa using this.1.1
  have hpost2 : post.countP Event.isWrite = 0 := by
    rw [List.countP_eq_zero]
    intro e he
    have := hall.2 e he; simp only [Bool.and_eq_true] at this
    simpa using this.1.2
  refine ⟨?_, ?_, by rw [hw]; rfl⟩
  · rw [ht]
    simp [List.countP_cons, List.countP_append, hmid1, hpost1, respondEvents, requestLog,
      Event.isWriteHeader]
  · rw [ht]
    simp [List.countP_cons, List.countP_append, hmid2, hpost2, respondEvents, requestLog,
      Event.isWrite]

/-- C6. Every run of each of the five handlers, on the success path and on every
error path, sends its response with the header `Content-Type: application/json`, and
the header is set before the status code is written. -/
theorem content_type_on_every_path (env : Env DB Player) (request : http.Request) (db : DB) :
    SendsJSONContentType (AllPlayersEndPoint env request (World.init db)) ∧
    SendsJSONContentType (CreatePlayerEndPoint env request (World.init db)) ∧
    SendsJSONContentType (UpdatePlayerEndPoint env request (World.init db)) ∧
    SendsJSONContentType (DeletePlayerEndPoint env request (World.init db)) ∧
    SendsJSONContentType (FindPlayerByIDEndPoint env request (World.init db)) :=
  ⟨(AllPlayersEndPoint_shape env request db).sendsJSONContentType,
   (CreatePlayerEndPoint_shape env request db).sendsJSONContentType,
   (UpdatePlayerEndPoint_shape env request db).sendsJSONContentType,
   (DeletePlayerEndPoint_shape env request db).sendsJSONContentType,
   (FindPlayerByIDEndPoint_shape env request db).sendsJSONContentType⟩

/-- C9. In every run of each of the five handlers the log entry that carries the
request's method, remote address and request URI occurs exactly once, and it is the
first effect: before the body decode, every data-access call and every write to the
response. -/
theorem request_logged_once_and_first (env : Env DB Player) (request : http.Request)
    (db : DB) :
    LogsRequestFirst request (AllPlayersEndPoint env request (World.init db)) ∧
    LogsRequestFirst request (CreatePlayerEndPoint env request (World.init db)) ∧
    LogsRequestFirst request (UpdatePlayerEndPoint env request (World.init db)) ∧
    LogsRequestFirst request (DeletePlayerEndPoint env request (World.init db)) ∧
    LogsRequestFirst request (FindPlayerByIDEndPoint env request (World.init db)) :=
  ⟨(AllPlayersEndPoint_shape env request db).logsRequestFirst,
   (CreatePlayerEndPoint_shape env request db).logsRequestFirst,
   (UpdatePlayerEndPoint_shape env request db).logsRequestFirst,
   (DeletePlayerEndPoint_shape env request db).logsRequestFirst,
   (FindPlayerByIDEndPoint_shape env request db).logsRequestFirst⟩

/-- C5. For each of the five handlers and every request, whatever path is taken: the
response has status 200 or 500; it has status 500 exactly when the body decode or the
data-access call returned an error; and then its body is the object with the one
member `error` whose value is the message of that error. -/
theorem errors_fold_into_500 (env : Env DB Player) (request : http.Request) (db : DB) :
    ErrorPolicy (AllPlayersEndPoint env request (World.init db))
      (env.playerDAO.FindAll db).1.2 ∧
    ErrorPolicy (CreatePlayerEndPoint env request (World.init db))
      (writeFailure (json.Decode env.codec request.Body)
        fun p => (env.playerDAO.Insert p db).1) ∧
    ErrorPolicy (UpdatePlayerEndPoint env request (World.init db))
      (writeFailure (json.Decode env.codec request.Body)
        fun p => (env.playerDAO.Update p db).1) ∧
    ErrorPolicy (DeletePlayerEndPoint env request (World.init db))
      (writeFailure (json.Decode env.codec request.Body)
        fun p => (env.playerDAO.Delete p db).1) ∧
    ErrorPolicy (FindPlayerByIDEndPoint env request (World.init db))
      (env.playerDAO.FindByID ((request.Vars.lookup "id").getD "") db).1.2 := by
  refine ⟨?_, ?_, ?_, ?_, ?_⟩
  · cases hc : (env.playerDAO.FindAll db).1.2 with
    | none =>
      simp [ErrorPolicy, (AllPlayersEndPoint_ok env request db hc).2.1, responded]
    | some err =>
      simp [ErrorPolicy, (AllPlayersEndPoint_err env request db err hc).2.1, responded]
  · cases hd : json.Decode env.codec request.Body with
    | error err =>
      simp [ErrorPolicy, writeFailure,
        (CreatePlayerEndPoint_decode_err env request db err hd).2.1, responded]
    | ok p =>
      cases hc : (env.playerDAO.Insert p db).1 with
      | none =>
        simp [ErrorPolicy, writeFailure, hc,
          (CreatePlayerEndPoint_ok env request db p hd hc).2.1, responded]
      | some err =>
        simp [ErrorPolicy, writeFailure, hc,
          (CreatePlayerEndPoint_call_err env request db p err hd hc).2.1, responded]
  · cases hd : json.Decode env.codec request.Body with
    | error err =>
      simp [ErrorPolicy, writeFailure,
        (UpdatePlayerEndPoint_decode_err env request db err hd).2.1, responded]
    | ok p =>
      cases hc : (env.playerDAO.Update p db).1 with
      | none =>
        simp [ErrorPolicy, writeFailure, hc,
          (UpdatePlayerEndPoint_ok env request db p hd hc).2.1, responded]
      | some err =>
        simp [ErrorPolicy, writeFailure, hc,
          (UpdatePlayerEndPoint_call_err env request db p err hd hc).2.1, responded]
  · cases hd : json.Decode env.codec request.Body with
    | error err =>
      simp [ErrorPolicy, writeFailure,
        (DeletePlayerEndPoint_decode_err env request db err hd).2.1, responded]
    | ok p =>
      cases hc : (env.playerDAO.Delete p db).1 with
      | none =>
        simp [ErrorPolicy, writeFailure, hc,
          (DeletePlayerEndPoint_ok env request db p hd hc).2.1, responded]
      | some err =>
        simp [ErrorPolicy, writeFailure, hc,
          (DeletePlayerEndPoint_call_err env request db p err hd hc).2.1, responded]
  · cases hc : (env.playerDAO.FindByID (muxVar request "id") db).1.2 with
    | none =>
      have hc2 := hc
      unfold muxVar at hc2
      simp [ErrorPolicy, hc2, (FindPlayerByIDEndPoint_ok env request db hc).2.1, responded]
    | some err =>
      have hc2 := hc
      unfold muxVar at hc2
      simp [ErrorPolicy, hc2, (FindPlayerByIDEndPoint_err env request db err hc).2.1, responded]

/-- C10. For `CreatePlayerEndPoint`, `UpdatePlayerEndPoint` and `DeletePlayerEndPoint`
and every request whose body fails to decode, no operation of the data-access object
is invoked and the database is left as it was; and every run of each of the five
handlers writes exactly one status line and exactly one body. -/
theorem decode_failure_calls_nothing (env : Env DB Player) (request : http.Request) (db : DB) :
    (∀ err : GoError, json.Decode env.codec request.Body = .error err →
      ((CreatePlayerEndPoint env request (World.init db)).trace.filter Event.isDAO = [] ∧
       (CreatePlayerEndPoint env request (World.init db)).db = db) ∧
      ((UpdatePlayerEndPoint env request (World.init db)).trace.filter Event.isDAO = [] ∧
       (UpdatePlayerEndPoint env request (World.init db)).db = db) ∧
      ((DeletePlayerEndPoint env request (World.init db)).trace.filter Event.isDAO = [] ∧
       (DeletePlayerEndPoint env request (World.init db)).db = db)) ∧
    WritesOneResponse (AllPlayersEndPoint env request (World.init db)) ∧
    WritesOneResponse (CreatePlayerEndPoint env request (World.init db)) ∧
    WritesOneResponse (UpdatePlayerEndPoint env request (World.init db)) ∧
    WritesOneResponse (DeletePlayerEndPoint env request (World.init db)) ∧
    WritesOneResponse (FindPlayerByIDEndPoint env request (World.init db)) := by
  refine ⟨fun err hd => ⟨?_, ?_, ?_⟩,
    (AllPlayersEndPoint_shape env request db).writesOneResponse,
    (CreatePlayerEndPoint_shape env request db).writesOneResponse,
    (UpdatePlayerEndPoint_shape env request db).writesOneResponse,
    (DeletePlayerEndPoint_shape env request db).writesOneResponse,
    (FindPlayerByIDEndPoint_shape env request db).writesOneResponse⟩
  · obtain ⟨h1, -, h3⟩ := CreatePlayerEndPoint_decode_err env request db err hd
    rw [h1, h3]
    simp [List.filter, Event.isDAO, respondEvents, errorLog, requestLog]
  · obtain ⟨h1, -, h3⟩ := UpdatePlayerEndPoint_decode_err env request db err hd
    rw [h1, h3]
    simp [List.filter, Event.isDAO, respondEvents, errorLog, requestLog]
  · obtain ⟨h1, -, h3⟩ := DeletePlayerEndPoint_decode_err env request db err hd
    rw [h1, h3]
    simp [List.filter, Event.isDAO, respondEvents, errorLog, requestLog]

/-- Witness of C10: a body that breaks off inside an object reaches no operation of
the data-access object, and the stored player is still there. -/
theorem decode_failure_calls_nothing_witness :
    json.Decode sampleEnv.codec "\x7b\"id\":".data = .error ⟨"unexpected EOF"⟩ ∧
    ((CreatePlayerEndPoint sampleEnv (sampleRequest "POST" "/players" "\x7b\"id\":" [])
        (World.init [⟨"p1", "Ada"⟩])).trace.filter Event.isDAO = [] ∧
     (CreatePlayerEndPoint sampleEnv (sampleRequest "POST" "/players" "\x7b\"id\":" [])
        (World.init [⟨"p1", "Ada"⟩])).db = [⟨"p1", "Ada"⟩]) :=
  ⟨rfl, ((decode_failure_calls_nothing sampleEnv
      (sampleRequest "POST" "/players" "\x7b\"id\":" []) [⟨"p1", "Ada"⟩]).1
      ⟨"unexpected EOF"⟩ rfl).1⟩

/-- C7, as stated, fails: over an empty collection whose `FindAll` leaves the result
slice nil (length 0, no error), `AllPlayersEndPoint` answers with status 200 and the
body `null`, which is not the empty array. -/
theorem nil_slice_is_written_as_null :
    (nilDAO.FindAll ()).1 = (none, none) ∧
    Slice.len (nilDAO.FindAll ()).1.1 = 0 ∧
    (AllPlayersEndPoint ⟨sampleCodec, nilDAO⟩ (sampleRequest "GET" "/players" "" [])
        (World.init ())).writer.status = 200 ∧
    (AllPlayersEndPoint ⟨sampleCodec, nilDAO⟩ (sampleRequest "GET" "/players" "" [])
        (World.init ())).writer.body = "null".data ∧
    (AllPlayersEndPoint ⟨sampleCodec, nilDAO⟩ (sampleRequest "GET" "/players" "" [])
        (World.init ())).writer.body ≠ "[]".data := by
  decide

/-- C7, amended. When `FindAll` returns an empty slice and no error,
`AllPlayersEndPoint` answers with status 200 and never with an error; the body is the
empty JSON array `[]` when the slice is non-nil, and `null` when the slice is nil. -/
theorem empty_collection_response (env : Env DB Player) (request : http.Request) (db : DB)
    (players : Slice Player) (hret : (env.playerDAO.FindAll db).1 = (players, none))
    (hlen : Slice.len players = 0) :
    (AllPlayersEndPoint env request (World.init db)).writer.status = 200 ∧
    (players ≠ none →
      (AllPlayersEndPoint env request (World.init db)).writer.body = "[]".data) ∧
    (players = none →
      (AllPlayersEndPoint env request (World.init db)).writer.body = "null".data) := by
  have h2 : (env.playerDAO.FindAll db).1.2 = none := by rw [hret]
  have h1 : (env.playerDAO.FindAll db).1.1 = players := by rw [hret]
  rw [(AllPlayersEndPoint_ok env request db h2).2.1, h1]
  cases players with
  | none => simp [responded, json.Marshal]
  | some l =>
    have : l = [] := by simpa [Slice.len] using hlen
    subst this
    simp [responded, json.Marshal, json.commaSep]

/-- Witness of the amended C7: a data-access layer that returns a non-nil empty slice
over an empty collection gives the body `[]`, one that returns the nil slice gives
`null`. -/
theorem empty_collection_response_witness :
    ((AllPlayersEndPoint sampleEnv (sampleRequest "GET" "/players" "" [])
        (World.init [])).writer.status = 200 ∧
     (AllPlayersEndPoint sampleEnv (sampleRequest "GET" "/players" "" [])
        (World.init [])).writer.body = "[]".data) ∧
    ((AllPlayersEndPoint ⟨sampleCodec, nilDAO⟩ (sampleRequest "GET" "/players?all" "" [])
        (World.init ())).writer.status = 200 ∧
     (AllPlayersEndPoint ⟨sampleCodec, nilDAO⟩ (sampleRequest "GET" "/players?all" "" [])
        (World.init ())).writer.body = "null".data) :=
  ⟨⟨(empty_collection_response sampleEnv (sampleRequest "GET" "/players" "" []) []
      (some []) rfl rfl).1,
    (empty_collection_response sampleEnv (sampleRequest "GET" "/players" "" []) []
      (some []) rfl rfl).2.1 (by simp)⟩,
   ⟨(empty_collection_response ⟨sampleCodec, nilDAO⟩
      (sampleRequest "GET" "/players?all" "" []) () none rfl rfl).1,
    (empty_collection_response ⟨sampleCodec, nilDAO⟩
      (sampleRequest "GET" "/players?all" "" []) () none rfl rfl).2.2 rfl⟩⟩

/-- C3, as stated, fails: the body `{}xyz` is not well-formed JSON (text follows the
JSON value `{}`), yet `Decode` reads the value, leaves the rest unread, and the three
writing handlers answer with status 200 and the success body. -/
theorem text_after_value_is_accepted :
    json.Valid "\x7b\x7dxyz".data = false ∧
    ((CreatePlayerEndPoint sampleEnv (sampleRequest "POST" "/players" "\x7b\x7dxyz" [])
        (World.init [])).writer.status = 200 ∧
     (CreatePlayerEndPoint sampleEnv (sampleRequest "POST" "/players" "\x7b\x7dxyz" [])
        (World.init [])).writer.body = "\x7b\"result\":\"success\"\x7d".data) ∧
    ((UpdatePlayerEndPoint sampleEnv (sampleRequest "PUT" "/players" "\x7b\x7dxyz" [])
        (World.init [⟨"", "Ada"⟩])).writer.status = 200 ∧
     (UpdatePlayerEndPoint sampleEnv (sampleRequest "PUT" "/players" "\x7b\x7dxyz" [])
        (World.init [⟨"", "Ada"⟩])).writer.body = "\x7b\"result\":\"success\"\x7d".data) ∧
    ((DeletePlayerEndPoint sampleEnv (sampleRequest "DELETE" "/players" "\x7b\x7dxyz" [])
        (World.init [⟨"", "Ada"⟩])).writer.status = 200 ∧
     (DeletePlayerEndPoint sampleEnv (sampleRequest "DELETE" "/players" "\x7b\x7dxyz" [])
        (World.init [⟨"", "Ada"⟩])).writer.body = "\x7b\"result\":\"success\"\x7d".data) := by
  decide

/-- A decode error makes the three writing handlers reject the request with it. -/
theorem RejectsWith_of_Decode_error (env : Env DB Player) (request : http.Request) (db : DB)
    (err : GoError) (hd : json.Decode env.codec request.Body = .error err) :
    RejectsWith env request db err := by
  refine ⟨?_, ?_, ?_⟩
  · rw [(CreatePlayerEndPoint_decode_err env request db err hd).2.1]
    simp [responded]
  · rw [(UpdatePlayerEndPoint_decode_err env request db err hd).2.1]
    simp [responded]
  · rw [(DeletePlayerEndPoint_decode_err env request db err hd).2.1]
    simp [responded]

/-- The writing handlers see the body only through `Decode`: a body that decodes
like the request's gives the same runs. -/
theorem RunsAsOn_of_Decode_eq (env : Env DB Player) (request : http.Request) (db : DB)
    (body : Bytes) (hd : json.Decode env.codec body = json.Decode env.codec request.Body) :
    RunsAsOn env request db body := by
  refine ⟨?_, ?_, ?_⟩
  · simp only [CreatePlayerEndPoint, decodeBody, logRequestInfo, hd]
  · simp only [UpdatePlayerEndPoint, decodeBody, logRequestInfo, hd]
  · simp only [DeletePlayerEndPoint, decodeBody, logRequestInfo, hd]

/-- C3, amended. For every request to `CreatePlayerEndPoint`, `UpdatePlayerEndPoint`
or `DeletePlayerEndPoint` whose body is not well-formed JSON, the handler returns,
and either the response has status 500 and as its body the object with the one member
`error`, or a proper initial segment of the body is well-formed JSON and the handler
runs exactly as on that segment alone. The decoder decides which. When it cannot read
a complete first JSON value from the front of the body (`readValue` reports an
error), the response is the 500 with that error's message; this is so whenever no
initial segment of the body is well-formed JSON, as for the empty body. When it reads
a first value of `n` bytes, these lie inside the body, are well-formed JSON, and the
handler runs exactly as on them alone. -/
theorem malformed_body_outcome (env : Env DB Player) (request : http.Request) (db : DB) :
    (json.Valid request.Body = false →
      (∃ err : GoError, json.Decode env.codec request.Body = .error err ∧
        RejectsWith env request db err) ∨
      (∃ n : Nat, n < request.Body.length ∧ json.Valid (request.Body.take n) = true ∧
        RunsAsOn env request db (request.Body.take n))) ∧
    (∀ err : GoError, (json.readValue request.Body).2 = some err →
      json.Decode env.codec request.Body = .error err ∧ RejectsWith env request db err) ∧
    ((∀ n : Nat, json.Valid (request.Body.take n) = false) →
      ∃ err : GoError, (json.readValue request.Body).2 = some err) ∧
    (∀ n : Nat, json.readValue request.Body = (n, none) →
      n ≤ request.Body.length ∧ json.Valid (request.Body.take n) = true ∧
      RunsAsOn env request db (request.Body.take n)) := by
  have hrej : ∀ err : GoError, (json.readValue request.Body).2 = some err →
      json.Decode env.codec request.Body = .error err ∧ RejectsWith env request db err := by
    intro err h
    have hd := json.Decode_of_readValue_error env.codec request.Body err h
    exact ⟨hd, RejectsWith_of_Decode_error env request db err hd⟩
  have hcut : ∀ n : Nat, json.readValue request.Body = (n, none) →
      n ≤ request.Body.length ∧ json.Valid (request.Body.take n) = true ∧
      RunsAsOn env request db (request.Body.take n) := by
    intro n h
    exact ⟨(json.readValue_cut request.Body n h).1, json.readValue_valid request.Body n h,
      RunsAsOn_of_Decode_eq env request db _ (json.Decode_cut env.codec request.Body n h)⟩
  refine ⟨?_, hrej, json.readValue_error_of_no_valid_segment request.Body, hcut⟩
  intro hinvalid
  cases hr : (json.readValue request.Body).2 with
  | some err => exact Or.inl ⟨err, hrej err hr⟩
  | none =>
    have h1 : json.readValue request.Body = ((json.readValue request.Body).1, none) := by
      rw [← hr]
    obtain ⟨hle, hvalid, hruns⟩ := hcut _ h1
    refine Or.inr ⟨_, ?_, hvalid, hruns⟩
    rcases Nat.lt_or_ge (json.readValue request.Body).1 request.Body.length with hlt | hge
    · exact hlt
    · rw [List.take_of_length_le hge, hinvalid] at hvalid
      simp at hvalid

/-- Witness of the amended C3. A number that breaks off at a letter (`1.x`) and an
exponent without digits (`1e`) are rejected with the decoder's error; the empty body
has no well-formed initial segment; and in a body that goes on after a complete
object the object is read, 24 bytes of well-formed JSON, and the handlers run as on
the object alone. -/
theorem malformed_body_outcome_witness :
    (json.Valid "1.x".data = false ∧
     RejectsWith sampleEnv (sampleRequest "POST" "/players" "1.x" []) []
       ⟨"invalid character 'x' after decimal point in numeric literal"⟩) ∧
    (json.Valid "1e".data = false ∧
     RejectsWith sampleEnv (sampleRequest "PUT" "/players" "1e" []) [] json.ErrUnexpectedEOF) ∧
    ((∀ n : Nat, json.Valid ("".data.take n) = false) ∧
     ∃ err : GoError, (json.readValue "".data).2 = some err) ∧
    (json.Valid "\x7b\"id\":\"p1\",\"name\":\"Ada\"\x7d]]".data = false ∧
     json.Valid ("\x7b\"id\":\"p1\",\"name\":\"Ada\"\x7d]]".data.take 24) = true ∧
     RunsAsOn sampleEnv
       (sampleRequest "POST" "/players" "\x7b\"id\":\"p1\",\"name\":\"Ada\"\x7d]]" []) []
       "\x7b\"id\":\"p1\",\"name\":\"Ada\"\x7d".data ∧
     (CreatePlayerEndPoint sampleEnv
       (sampleRequest "POST" "/players" "\x7b\"id\":\"p1\",\"name\":\"Ada\"\x7d]]" [])
       (World.init [])).writer.status = 200) :=
  ⟨⟨by decide,
    ((malformed_body_outcome sampleEnv (sampleRequest "POST" "/players" "1.x" []) []).2.1
      ⟨"invalid character 'x' after decimal point in numeric literal"⟩ (by decide)).2⟩,
   ⟨by decide,
    ((malformed_body_outcome sampleEnv (sampleRequest "PUT" "/players" "1e" []) []).2.1
      json.ErrUnexpectedEOF (by decide)).2⟩,
   ⟨fun n => by cases n <;> first | decide | (show json.Valid [] = false; decide),
    (malformed_body_outcome sampleEnv (sampleRequest "DELETE" "/players" "" []) []).2.2.1
      (fun n => by cases n <;> first | decide | (show json.Valid [] = false; decide))⟩,
   ⟨by decide,
    ((malformed_body_outcome sampleEnv
      (sampleRequest "POST" "/players" "\x7b\"id\":\"p1\",\"name\":\"Ada\"\x7d]]" []) []).2.2.2
      24 (by decide)).2.1,
    ((malformed_body_outcome sampleEnv
      (sampleRequest "POST" "/players" "\x7b\"id\":\"p1\",\"name\":\"Ada\"\x7d]]" []) []).2.2.2
      24 (by decide)).2.2,
    by decide⟩⟩

end TournamentTurtle
